import Mathlib

/-!
# Data service of the admin dashboard

A shallow embedding of `src/utils/constants.js`, `src/utils/api.js` and
`src/utils/dataService.js`: the source registry, the aggregator `fetchAllData`,
the normalizer `transformData`, the cache read `getCachedData` and the two entry
points `fetchFreshData` and `initializeData`; of the source fetcher
`fetchFromSource` of `src/components/fetchData.js`; of the session check of
`src/utils/session.js`; and of the parts of the pages `Dashboard.jsx`,
`Submissions.jsx` and `Blogs.jsx` that decide what is rendered, filtered, exported
or computed.

JavaScript values are modelled by `JVal`, objects by association lists, thrown
exceptions by `Except String` (the string is the `message` of the thrown error),
`localStorage` by an explicit `Storage` value that is threaded through the calls,
and the network by a function from URLs to the outcome of the request.
-/

namespace Admin

/-! ## JavaScript values -/

/-- A value as produced by `JSON.parse`. A number is kept by its exact value, a
rational (JSON has no `NaN`; a literal that overflows to `Infinity` is left out). -/
inductive JVal where
  | null
  | bool (b : Bool)
  | num (n : ℚ)
  | str (s : String)
  | arr (items : List JVal)
  | obj (fields : List (String × JVal))

/-- An object: its own enumerable properties, in order. -/
abbrev JObject := List (String × JVal)

/-- A record as returned by an endpoint and tagged by the aggregator. -/
abbrev RawRecord := JObject

/-- Property read `o[key]`; `none` stands for `undefined`. -/
def getField (key : String) : JObject → Option JVal
  | [] => none
  | (k, v) :: rest => if k = key then some v else getField key rest

/-- Property write in an object literal: an existing key keeps its position and
takes the new value, a new key is added at the end. -/
def setField (key : String) (value : JVal) : JObject → JObject
  | [] => [(key, value)]
  | (k, v) :: rest =>
    if k = key then (key, value) :: rest else (k, v) :: setField key value rest

/-- Index keys `"0"`, `"1"`, ... given to the elements of an array or the
characters of a string when it is spread into an object. -/
def indexed (start : Nat) : List JVal → JObject
  | [] => []
  | v :: rest => (toString start, v) :: indexed (start + 1) rest

/-- Object spread `{...item}`: the own enumerable properties of the value. -/
def spread : JVal → JObject
  | .obj fields => fields
  | .arr items => indexed 0 items
  | .str s => indexed 0 (s.toList.map fun c => JVal.str (String.singleton c))
  | _ => []

/-- JavaScript truthiness of a JSON value. -/
def truthy : JVal → Bool
  | .null => false
  | .bool b => b
  | .num n => n != 0
  | .str s => s != ""
  | .arr _ => true
  | .obj _ => true

/-- The operator `a || b` where `a` is a property read (possibly `undefined`). -/
def jsOr (a : Option JVal) (b : JVal) : JVal :=
  match a with
  | some v => if truthy v then v else b
  | none => b

/-- Whether `needle` occurs as a contiguous run inside the character list. -/
def containsSub (needle : List Char) : List Char → Bool
  | [] => needle.isEmpty
  | c :: cs => needle.isPrefixOf (c :: cs) || containsSub needle cs

/-- The method call `v.includes(needle)` for a string needle: substring search on
a string, element search on an array, a `TypeError` on anything else. -/
def includes (v : JVal) (needle : String) : Except String Bool :=
  match v with
  | .str s => .ok (containsSub needle.toList s.toList)
  | .arr items =>
    .ok (items.any fun x => match x with
      | .str t => t == needle
      | _ => false)
  | .null => .error "Cannot read properties of null (reading 'includes')"
  | _ => .error "item._source.includes is not a function"

/-! ## `utils/constants.js` -/

/-- An entry of the source registry. -/
structure Source where
  name : String
  url : String
  fields : List String

/-- The registry `dataSources`. -/
def dataSources : List Source :=
  [ { name := "Career Subscription - Professional Edge Global",
      url := "https://script.google.com/macros/s/AKfycby4kMORYTPDmHJr3iaFK05KP4CBNvDGFHub5Xr2xSiOM4BWB0GRZlIFtryUYs3395AT/exec",
      fields := ["email", "timestamp"] },
    { name := "Email Subscription List - Professional Edge Global",
      url := "https://script.google.com/macros/s/AKfycbxCp-x-8CKOAGxO2A_0xw09tIXWoMLVBaaPxVhtDA-30Etw8mc2Mk1auK0yPdJML74/exec",
      fields := ["email", "timestamp"] },
    { name := "Consultation Emails - S. Suresh & Associates",
      url := "https://script.google.com/macros/s/AKfycbx_EpZLawq48T5aAC8nl3qy_NIlCs0zWaQyGtZotziClOyKlpR0oHcUMsAeb76xhdKu/exec",
      fields := ["email", "timestamp"] },
    { name := "Contact Form Submission - Professional Edge Global",
      url := "https://script.google.com/macros/s/AKfycbxPingtSPIPmWQnzicm3MTKNEKJkAcxbY3z-ytPYm15319ZP1pAu_kh_5YvqG35CxoP/exec",
      fields := ["name", "email", "company", "message"] },
    { name := "Contact Form Submission - S. Suresh & Associates",
      url := "https://script.google.com/macros/s/AKfycbwdN3RsbBL9870hsny1l0IRzqjgi6H-565LXpbI8yEwM5Od1tRlIcohjMzf78WxC-og/exec",
      fields := ["name", "email", "subject", "message"] },
    { name := "Claim Form Submission - Everest Claims and Advisory",
      url := "https://script.google.com/macros/s/AKfycbyFSj59-mDvYA1L1qB2t7q4_bPGi8ukr_LbIMtGqhIshr9BBELC_7TOKLVHbzII_4IjsA/exec",
      fields := ["name", "email", "message"] } ]

/-- The constant `CACHE_EXPIRY_MINUTES`. -/
def CACHE_EXPIRY_MINUTES : ℚ := 5

/-! ## `utils/api.js` -/

/-- How the promise `fetch(url).then(response => response.json())` settles:
fulfilled with the parsed body, or rejected with an error message. `order` ranks
the rejections in time: `Promise.all` rejects with the earliest one. -/
inductive Outcome where
  | resolved (body : JVal)
  | rejected (order : Nat) (message : String)

/-- The network: the outcome of the request to each URL. -/
abbrev Net := String → Outcome

/-- The earliest rejection among the promises (the first in list order among
equally early ones), with its rank. -/
def firstRejected : List Outcome → Option (Nat × String)
  | [] => none
  | .resolved _ :: rest => firstRejected rest
  | .rejected order message :: rest =>
    match firstRejected rest with
    | some (order', message') =>
      if order' < order then some (order', message') else some (order, message)
    | none => some (order, message)

/-- The bodies of the fulfilled promises, in order. -/
def bodies : List Outcome → List JVal
  | [] => []
  | .resolved body :: rest => body :: bodies rest
  | .rejected _ _ :: rest => bodies rest

/-- The call `Promise.all(promises)`: rejects as soon as one promise rejects,
otherwise fulfils with all the values in order. -/
def promiseAll (promises : List Outcome) : Except String (List JVal) :=
  match firstRejected promises with
  | some (_, message) => .error message
  | none => .ok (bodies promises)

/-- The inner `data.map(item => ({ ...item, _source: dataSources[index].name }))`:
only an array has a `map` method; the registry entry is read once per item. -/
def tagItems (index : Nat) (data : JVal) : Except String (List RawRecord) :=
  match data with
  | .arr items =>
    items.mapM fun item =>
      match dataSources[index]? with
      | some source => .ok (setField "_source" (.str source.name) (spread item))
      | none => .error "Cannot read properties of undefined (reading 'name')"
  | .null => .error "Cannot read properties of null (reading 'map')"
  | _ => .error "data.map is not a function"

/-- The call `results.flatMap((data, index) => ...)`, from position `index` on. -/
def flatMapTagged (index : Nat) : List JVal → Except String (List RawRecord)
  | [] => .ok []
  | data :: rest =>
    match tagItems index data with
    | .error e => .error e
    | .ok tagged =>
      match flatMapTagged (index + 1) rest with
      | .error e => .error e
      | .ok more => .ok (tagged ++ more)

/-- The aggregator `fetchAllData` of `utils/api.js`: one request per registered
source, `Promise.all`, then the tagged records of all sources in one list. The
`catch` block logs and rethrows. -/
def fetchAllData (net : Net) : Except String (List RawRecord) :=
  match promiseAll (dataSources.map fun source => net source.url) with
  | .error e => .error e
  | .ok results => flatMapTagged 0 results

/-! ## `utils/dataService.js` -/

/-- The canonical submission built by the normalizer. -/
structure Submission where
  id : String
  sourceSite : JVal
  sourceUrl : String
  type : String
  submittedAt : JVal
  name : JVal
  email : JVal
  subject : JVal
  message : JVal
  subscribed : Bool

/-- The strict comparison `src.name === item._source`. -/
def nameIs (name : String) : JVal → Bool
  | .str s => name == s
  | _ => false

/-- The expression `dataSources.find(src => src.name === item._source)?.url || ''`. -/
def sourceUrlOf (source : JVal) : String :=
  match dataSources.find? fun src => nameIs src.name source with
  | some src => if src.url != "" then src.url else ""
  | none => ""

/-- The object literal built by the callback of `data.map` in `transformData`, once
`item._source` has been read as `source` and the type has been decided. -/
def transformItem.build (nowIso : String) (item : RawRecord) (index : Nat) (source : JVal)
    (type : String) : Submission :=
  { id := toString (index + 1),
    sourceSite := source,
    sourceUrl := sourceUrlOf source,
    type := type,
    submittedAt := jsOr (getField "timestamp" item) (.str nowIso),
    name := jsOr (getField "name" item) (.str "Not provided"),
    email := jsOr (getField "email" item) (.str "No email"),
    subject := jsOr (getField "subject" item)
      (jsOr (getField "company" item) (.str "No subject")),
    message := jsOr (getField "message" item) (.str "No message provided"),
    subscribed := true }

/-- The callback of `data.map` in `transformData`, applied to `item` at position
`index`; `nowIso` is the value of `new Date().toISOString()`. Calling `includes` on
a missing `_source` throws. -/
def transformItem (nowIso : String) (item : RawRecord) (index : Nat) :
    Except String Submission :=
  match getField "_source" item with
  | none => .error "Cannot read properties of undefined (reading 'includes')"
  | some source =>
    match includes source "Subscription" with
    | .error e => .error e
    | .ok true => .ok (transformItem.build nowIso item index source "subscription")
    | .ok false =>
      match includes source "Consultation" with
      | .error e => .error e
      | .ok true => .ok (transformItem.build nowIso item index source "subscription")
      | .ok false => .ok (transformItem.build nowIso item index source "contact")

/-- The map of `transformData` over the items from position `index` on. -/
def transformFrom (nowIso : String) (index : Nat) : List RawRecord → Except String (List Submission)
  | [] => .ok []
  | item :: rest =>
    match transformItem nowIso item index with
    | .error e => .error e
    | .ok first =>
      match transformFrom nowIso (index + 1) rest with
      | .error e => .error e
      | .ok others => .ok (first :: others)

/-- The normalizer `transformData`. -/
def transformData (nowIso : String) (data : List RawRecord) : Except String (List Submission) :=
  transformFrom nowIso 0 data

/-- The object `{ data, timestamp }` kept in the cache slot; `timestamp` is in epoch
milliseconds. -/
structure CacheEntry where
  data : List Submission
  timestamp : Int

/-- What `JSON.parse` and the destructuring `{ data, timestamp }` make of the text
stored under `CACHE_KEY`. -/
inductive Slot where
  /-- Text on which `JSON.parse` throws, or the text `null`, on which the
  destructuring throws. -/
  | unparsable
  /-- Text that parses to a value without a numeric `timestamp` (such as an empty
  object): the age is `NaN` and every comparison with it is false. -/
  | noTimestamp
  /-- A well-formed entry. -/
  | entry (e : CacheEntry)

/-- The state of `localStorage` as far as the data service sees it: the content of
the single slot `CACHE_KEY` (`none`: no item, `getItem` gives `null`) and whether
`setItem` raises (quota exceeded, storage disabled). -/
structure Storage where
  slot : Option Slot
  writeFails : Bool

/-- The call `localStorage.setItem(CACHE_KEY, JSON.stringify(cacheData))`. -/
def setItem (st : Storage) (cacheData : CacheEntry) : Except String Storage :=
  if st.writeFails then .error "The quota has been exceeded."
  else .ok { st with slot := some (.entry cacheData) }

/-- The function `getCachedData`, read at clock time `now` (epoch milliseconds).
The age in minutes is the exact quotient; on integral millisecond values the
floating-point quotient compares with 5 in the same way. -/
def getCachedData (st : Storage) (now : Int) : Except String (Option CacheEntry) :=
  match st.slot with
  | none => .ok none
  | some .unparsable => .error "Unexpected token in JSON"
  | some .noTimestamp => .ok none
  | some (.entry e) =>
    let cacheAgeMinutes : ℚ := ((now - e.timestamp : Int) : ℚ) / (1000 * 60)
    if cacheAgeMinutes < CACHE_EXPIRY_MINUTES then
      .ok (some { data := e.data, timestamp := e.timestamp })
    else .ok none

/-- The readings of `new Date()` during one synchronous run of the service. -/
structure Clock where
  getTime : Int
  toISOString : String

/-- The object returned by the data service; `timestamp` is the `Date` object,
given by its epoch milliseconds. The object literals of `dataService.js` have the
properties `data`, `error` and `timestamp` only;
`isCached` is the property that `Dashboard.jsx` reads from the result of
`initializeData`, `none` when the object does not have it (`undefined`). -/
structure Result where
  data : List Submission
  error : Option String
  timestamp : Int
  isCached : Option Bool

/-- The `try` block of `fetchFreshData`: aggregate, normalize, write the cache,
build the result. -/
def fetchFreshData.tryBlock (net : Net) (clock : Clock) (st : Storage) :
    Except String (Result × Storage) :=
  match fetchAllData net with
  | .error e => .error e
  | .ok freshData =>
    match transformData clock.toISOString freshData with
    | .error e => .error e
    | .ok transformedData =>
      match setItem st { data := transformedData, timestamp := clock.getTime } with
      | .error e => .error e
      | .ok st' =>
        .ok ({ data := transformedData, error := none, timestamp := clock.getTime,
               isCached := none }, st')

/-- The function `fetchFreshData`: the outcome of the call (a result, or the
message of an exception that escapes) and the storage afterwards. `clock` is read
when the requests have settled. -/
def fetchFreshData (net : Net) (clock : Clock) (st : Storage) :
    Except String Result × Storage :=
  match fetchFreshData.tryBlock net clock st with
  | .ok (result, st') => (.ok result, st')
  | .error message =>
    match getCachedData st clock.getTime with
    | .error e => (.error e, st)
    | .ok (some cached) =>
      (.ok { data := cached.data,
             error := some "Failed to fetch fresh data. Showing cached data.",
             timestamp := cached.timestamp, isCached := none }, st)
    | .ok none =>
      (.ok { data := [], error := some message, timestamp := clock.getTime,
             isCached := none }, st)

/-- What a call of `initializeData` leaves behind: its outcome, the storage, and
whether `setTimeout(fetchFreshData, 0)` has queued a background refresh. -/
structure InitReturn where
  result : Except String Result
  storage : Storage
  refreshQueued : Bool

/-- The function `initializeData`. `clock` is read on entry, `later` when the
requests of the awaited `fetchFreshData` have settled. -/
def initializeData (net : Net) (clock later : Clock) (st : Storage) : InitReturn :=
  match getCachedData st clock.getTime with
  | .error e => { result := .error e, storage := st, refreshQueued := false }
  | .ok (some cached) =>
    { result := .ok { data := cached.data, error := none,
                      timestamp := cached.timestamp, isCached := none },
      storage := st, refreshQueued := true }
  | .ok none =>
    let fresh := fetchFreshData net later st
    { result := fresh.1, storage := fresh.2, refreshQueued := false }

/-- The call `localStorage.getItem(CACHE_KEY)`: the content of the slot, and the
storage after the call. -/
def getItem (st : Storage) : Option Slot × Storage := (st.slot, st)

/-- The function `getCachedData` in state-passing form: its outcome and the storage
after the call. Its only access to the storage is the one `getItem`. -/
def getCachedData.run (st : Storage) (now : Int) :
    Except String (Option CacheEntry) × Storage :=
  match getItem st with
  | (none, st') => (.ok none, st')
  | (some .unparsable, st') => (.error "Unexpected token in JSON", st')
  | (some .noTimestamp, st') => (.ok none, st')
  | (some (.entry e), st') =>
    let cacheAgeMinutes : ℚ := ((now - e.timestamp : Int) : ℚ) / (1000 * 60)
    if cacheAgeMinutes < CACHE_EXPIRY_MINUTES then
      (.ok (some { data := e.data, timestamp := e.timestamp }), st')
    else (.ok none, st')

/-! ## `components/fetchData.js` -/

/-- How the request of `fetchFromSource` goes: `fetch` rejects (network error), or
a response arrives with its status and with the outcome of `response.json()`, the
parsed body or the message of the parse error. -/
inductive HttpOutcome where
  | networkError (message : String)
  | response (status : Nat) (json : Except String JVal)

/-- The property `response.ok`: the status is in the range 200 to 299. -/
def statusOk (status : Nat) : Bool := 200 ≤ status && status ≤ 299

/-- The `try` block of `fetchFromSource`: the request, the status check, the parse
and `data.map(row => ({ ...row, _source: source.name, _fields: source.fields }))`. -/
def fetchFromSource.tryBlock (source : Source) : HttpOutcome → Except String (List RawRecord)
  | .networkError message => .error message
  | .response status json =>
    if !statusOk status then .error ("HTTP error! status: " ++ toString status)
    else
      match json with
      | .error e => .error e
      | .ok (.arr rows) =>
        .ok (rows.map fun row =>
          setField "_fields" (.arr (source.fields.map JVal.str))
            (setField "_source" (.str source.name) (spread row)))
      | .ok .null => .error "Cannot read properties of null (reading 'map')"
      | .ok _ => .error "data.map is not a function"

/-- The function `fetchFromSource`: the `catch` block logs the error and returns an
empty array. -/
def fetchFromSource (source : Source) (outcome : HttpOutcome) :
    Except String (List RawRecord) :=
  match fetchFromSource.tryBlock source outcome with
  | .ok rows => .ok rows
  | .error _ => .ok []

/-! ## `utils/session.js` and `components/ProtectedRoute.jsx` -/

/-- The object `{ id, user, timestamp }` written by `setSession`; `timestamp` is in
epoch milliseconds. -/
structure Session where
  id : String
  user : JVal
  timestamp : Int

/-- What `JSON.parse` makes of the text stored under `adminSession`. -/
inductive ParsedSession where
  /-- A falsy value (`null`, `false`, `0` or the empty string). -/
  | falsy
  /-- A truthy value without a numeric `timestamp`: the age is `NaN`. -/
  | noTimestamp
  /-- A session object. -/
  | session (s : Session)

/-- The text stored under `adminSession`: text that `JSON.parse` rejects, or text
that parses. -/
inductive SessionSlot where
  | unparsable
  | parsed (value : ParsedSession)

/-- The state of `sessionStorage` as far as `session.js` sees it (`none`: no item,
or the empty string). -/
abbrev SessionStorage := Option SessionSlot

/-- The function `getSession`. -/
def getSession (st : SessionStorage) : Except String (Option ParsedSession) :=
  match st with
  | none => .ok none
  | some .unparsable => .error "Unexpected token in JSON"
  | some (.parsed value) => .ok (some value)

/-- The constant `THIRTY_MINUTES` of `isSessionValid`. -/
def THIRTY_MINUTES : Int := 30 * 60 * 1000

/-- The function `isSessionValid`, called at clock time `now`. -/
def isSessionValid (st : SessionStorage) (now : Int) : Except String Bool :=
  match getSession st with
  | .error e => .error e
  | .ok none => .ok false
  | .ok (some .falsy) => .ok false
  | .ok (some .noTimestamp) => .ok false
  | .ok (some (.session session)) => .ok (decide (now - session.timestamp < THIRTY_MINUTES))

/-- What `ProtectedRoute` renders. -/
inductive Route where
  | navigateToLogin
  | outlet

/-- The component `ProtectedRoute`. -/
def ProtectedRoute (st : SessionStorage) (now : Int) : Except String Route :=
  match isSessionValid st now with
  | .error e => .error e
  | .ok valid => .ok (if !valid then .navigateToLogin else .outlet)

/-! ## `pages/Dashboard.jsx` -/

/-- The state of a data page that decides what it renders. -/
structure PageState where
  submissions : List Submission
  loading : Bool
  error : Option String

/-- What a data page renders: the spinner, the error display alone, or the page
body, built from the submissions `shown`, with the inline error display when
`warning` is not `none`. -/
inductive View where
  | loadingSpinner
  | errorDisplay (error : String)
  | page (warning : Option String) (shown : List Submission)

/-- The test `error && ...`: the error when it is neither `null` nor the empty
string. -/
def truthyError : Option String → Option String
  | some e => if e != "" then some e else none
  | none => none

/-- The two early returns and the body of `Dashboard`; the body contains
`{error && <ErrorDisplay error={error} />}`. -/
def Dashboard.render (s : PageState) : View :=
  if s.loading && s.submissions.length == 0 then .loadingSpinner
  else
    match truthyError s.error with
    | some e => if s.submissions.length == 0 then .errorDisplay e else .page (some e) s.submissions
    | none => .page none s.submissions

/-- The value of the entry 'Total Submissions' of `stats`. -/
def Dashboard.totalSubmissions (submissions : List Submission) : Nat :=
  submissions.length

/-- The value of the entry 'Contact Forms' of `stats`. -/
def Dashboard.contactForms (submissions : List Submission) : Nat :=
  (submissions.filter fun s => s.type == "contact").length

/-- The value of the entry 'Subscriptions' of `stats`. -/
def Dashboard.subscriptions (submissions : List Submission) : Nat :=
  (submissions.filter fun s => s.type == "subscription").length

/-! ## `pages/Submissions.jsx`

The built-in `String.prototype.toLowerCase` is a parameter `toLowerCase` of the
functions that call it, and `Date.prototype.toLocaleDateString` a parameter
`toLocaleDateString`. -/

/-- The pieces of `text.split(sep)` for a one-character separator. -/
def splitChars (sep : Char) : List Char → List (List Char)
  | [] => [[]]
  | c :: cs =>
    if c = sep then [] :: splitChars sep cs
    else
      match splitChars sep cs with
      | first :: rest => (c :: first) :: rest
      | [] => [[c]]

/-- The function `getCompanyFromEmail`:
`email?.split('@')[1]?.split('.')[0] || ''`. -/
def getCompanyFromEmail (email : JVal) : Except String String :=
  match email with
  | .null => .ok ""
  | .str s =>
    match (splitChars '@' s.toList)[1]? with
    | none => .ok ""
    | some domain =>
      match splitChars '.' domain with
      | first :: _ => .ok (String.mk first)
      | [] => .ok ""
  | _ => .error "email?.split is not a function"

/-- The function `getSourceWebsite`. -/
def getSourceWebsite (toLowerCase : String → String) (sourceSite : JVal) :
    Except String String :=
  match sourceSite with
  | .null => .ok "Unknown source"
  | .str s =>
    if toLowerCase s = "professionaledgeglobal" then .ok "professionaledgeglobal.com.np"
    else if toLowerCase s = "ssuresh & associates" then .ok "ssureshandassociates.com.np"
    else if toLowerCase s = "ssureshandassociates" then .ok "ssureshandassociates.com.np"
    else if s != "" then .ok s
    else .ok "Unknown source"
  | _ => .error "sourceSite?.toLowerCase is not a function"

/-- The expression `(value?.toLowerCase() || '')`. -/
def Submissions.lowered (toLowerCase : String → String) (value : JVal) :
    Except String String :=
  match value with
  | .null => .ok ""
  | .str s => .ok (if toLowerCase s != "" then toLowerCase s else "")
  | _ => .error "toLowerCase is not a function"

/-- The constant `matchesSearch` of the filter callback: the five tests joined by
`||`, evaluated from the left until one holds. -/
def Submissions.matchesSearch (toLowerCase : String → String) (searchTerm : String)
    (submission : Submission) : Except String Bool :=
  let term := (toLowerCase searchTerm).toList
  match Submissions.lowered toLowerCase submission.name with
  | .error e => .error e
  | .ok name =>
    if containsSub term name.toList then .ok true
    else
      match Submissions.lowered toLowerCase submission.email with
      | .error e => .error e
      | .ok email =>
        if containsSub term email.toList then .ok true
        else
          match Submissions.lowered toLowerCase submission.subject with
          | .error e => .error e
          | .ok subject =>
            if containsSub term subject.toList then .ok true
            else
              match getSourceWebsite toLowerCase submission.sourceSite with
              | .error e => .error e
              | .ok website =>
                if containsSub term
                    (if toLowerCase website != "" then toLowerCase website else "").toList
                then .ok true
                else
                  match getCompanyFromEmail submission.email with
                  | .error e => .error e
                  | .ok company => .ok (containsSub term (toLowerCase company).toList)

/-- The constant `matchesType` of the filter callback. -/
def Submissions.matchesType (typeFilter : String) (submission : Submission) : Bool :=
  typeFilter == "all" ||
    (typeFilter == "contact" && submission.type == "contact") ||
    (typeFilter == "subscription" && submission.type == "subscription")

/-- The constant `filteredSubmissions`: `submissions.filter(...)`. -/
def filteredSubmissions (toLowerCase : String → String) (searchTerm typeFilter : String) :
    List Submission → Except String (List Submission)
  | [] => .ok []
  | submission :: rest =>
    match Submissions.matchesSearch toLowerCase searchTerm submission with
    | .error e => .error e
    | .ok found =>
      match filteredSubmissions toLowerCase searchTerm typeFilter rest with
      | .error e => .error e
      | .ok others =>
        .ok (if found && Submissions.matchesType typeFilter submission then submission :: others
             else others)

/-- The component `Submissions`: the filter is computed first, then come the two
early returns and the body, which holds the table of the filtered submissions and
no error display. -/
def Submissions.render (toLowerCase : String → String) (s : PageState)
    (searchTerm typeFilter : String) : Except String View :=
  match filteredSubmissions toLowerCase searchTerm typeFilter s.submissions with
  | .error e => .error e
  | .ok filtered =>
    if s.loading && s.submissions.length == 0 then .ok .loadingSpinner
    else
      match truthyError s.error with
      | some e => if s.submissions.length == 0 then .ok (.errorDisplay e) else .ok (.page none filtered)
      | none => .ok (.page none filtered)

/-- The function `formatDate`: the `catch` block returns 'Invalid date'. -/
def formatDate (toLocaleDateString : JVal → Except String String) (dateString : JVal) :
    String :=
  match toLocaleDateString dateString with
  | .ok text => text
  | .error _ => "Invalid date"

mutual
/-- The method `toString` of a value. The built-in `Number.prototype.toString`,
which writes a number in decimal or exponent form, is the parameter
`numberToString`. -/
def jsToString (numberToString : ℚ → String) : JVal → String
  | .null => "null"
  | .bool b => if b then "true" else "false"
  | .num n => numberToString n
  | .str s => s
  | .arr items => ",".intercalate (elementStrings numberToString items)
  | .obj _ => "[object Object]"
/-- The texts that `Array.prototype.join` gives to the elements (a `null` element
gives the empty text). -/
def elementStrings (numberToString : ℚ → String) : List JVal → List String
  | [] => []
  | .null :: rest => "" :: elementStrings numberToString rest
  | v :: rest => jsToString numberToString v :: elementStrings numberToString rest
end

/-- The replacement `.replace(/"/g, '""')` on the characters of a text. -/
def replaceQuotes : List Char → List Char
  | [] => []
  | c :: cs => if c = '"' then '"' :: '"' :: replaceQuotes cs else c :: replaceQuotes cs

/-- The text `(field || 'N/A').toString()` that is exported for a cell. -/
def exportedText (numberToString : ℚ → String) (field : JVal) : String :=
  jsToString numberToString (jsOr (some field) (.str "N/A"))

/-- The callback of the inner `map` of `handleExport`: the exported text with its
double quotes doubled, between double quotes. -/
def csvField (numberToString : ℚ → String) (field : JVal) : String :=
  "\"" ++ String.mk (replaceQuotes (exportedText numberToString field).toList) ++ "\""

/-- The array of the eight cells of a submission in `handleExport`. -/
def handleExport.cells (toLowerCase : String → String)
    (toLocaleDateString : JVal → Except String String) (submission : Submission) :
    Except String (List JVal) :=
  match getCompanyFromEmail submission.email with
  | .error e => .error e
  | .ok company =>
    match getSourceWebsite toLowerCase submission.sourceSite with
    | .error e => .error e
    | .ok website =>
      .ok [ .str submission.id,
            .str (if submission.type == "contact" then "Contact Form" else "Subscription"),
            submission.name,
            submission.email,
            .str company,
            submission.subject,
            .str website,
            .str (formatDate toLocaleDateString submission.submittedAt) ]

/-- The header row of the export. -/
def handleExport.header : String :=
  ",".intercalate ["ID", "Type", "Name", "Email", "Company", "Subject", "Source", "Submitted At"]

/-- The data rows of the export, one per filtered submission. -/
def handleExport.rows (toLowerCase : String → String)
    (toLocaleDateString : JVal → Except String String) (numberToString : ℚ → String) :
    List Submission → Except String (List String)
  | [] => .ok []
  | submission :: rest =>
    match handleExport.cells toLowerCase toLocaleDateString submission with
    | .error e => .error e
    | .ok cells =>
      match handleExport.rows toLowerCase toLocaleDateString numberToString rest with
      | .error e => .error e
      | .ok others => .ok (",".intercalate (cells.map (csvField numberToString)) :: others)

/-- The constant `csvContent` of `handleExport`. -/
def handleExport.csvContent (toLowerCase : String → String)
    (toLocaleDateString : JVal → Except String String) (numberToString : ℚ → String)
    (filteredSubmissions : List Submission) : Except String String :=
  match handleExport.rows toLowerCase toLocaleDateString numberToString
      filteredSubmissions with
  | .error e => .error e
  | .ok rows => .ok ("\n".intercalate (handleExport.header :: rows))

/-! ## `pages/Blogs.jsx` -/

/-- The first match of the regular expression `/[&?]id=([^&]+)/`: its capture
group, the longest run of characters other than `&` after the first `&id=` or
`?id=` that is followed by such a character. -/
def matchId : List Char → Option (List Char)
  | [] => none
  | c :: rest =>
    if (c = '&' ∨ c = '?') ∧ "id=".toList.isPrefixOf rest = true ∧
        (rest.drop 3).takeWhile (fun x => x != '&') ≠ [] then
      some ((rest.drop 3).takeWhile fun x => x != '&')
    else matchId rest

/-- The function `getDirectDriveUrl`; `none` stands for a `null` or `undefined`
argument. The length of the text is counted in characters. -/
def getDirectDriveUrl (url : Option String) : Option String :=
  match url with
  | none => none
  | some url =>
    if url = "" then some url
    else if containsSub "/file/d/".toList url.toList && containsSub "/view".toList url.toList then
      some url
    else
      let fileId : Option String :=
        match matchId url.toList with
        | some id => some (String.mk id)
        | none => if url.length = 33 then some url else none
      match fileId with
      | some id =>
        if id != "" then some ("https://drive.google.com/file/d/" ++ id ++ "/view") else some url
      | none => some url

/-- The function `Math.round` on an exact quotient: the nearest integer, halves
going up. -/
def mathRound (x : ℚ) : Int := ⌊x + 1 / 2⌋

/-- The dimensions of the canvas computed in `img.onload` of `compressImage` from
the dimensions of the image and the two bounds. The quotients are exact. -/
def compressImage.dimensions (imgWidth imgHeight maxWidth maxHeight : Int) : Int × Int :=
  if imgWidth > maxWidth ∨ imgHeight > maxHeight then
    if (imgWidth : ℚ) / imgHeight > (maxWidth : ℚ) / maxHeight then
      (maxWidth, mathRound ((imgHeight * maxWidth : ℚ) / imgWidth))
    else
      (mathRound ((imgWidth * maxHeight : ℚ) / imgHeight), maxHeight)
  else (imgWidth, imgHeight)

/-! ## Sample inputs -/

/-- A normalized submission. -/
def sampleSubmission : Submission :=
  { id := "1",
    sourceSite := .str "Career Subscription - Professional Edge Global",
    sourceUrl := "https://script.google.com/macros/s/AKfycby4kMORYTPDmHJr3iaFK05KP4CBNvDGFHub5Xr2xSiOM4BWB0GRZlIFtryUYs3395AT/exec",
    type := "subscription",
    submittedAt := .str "2024-01-01T00:00:00.000Z",
    name := .str "Not provided",
    email := .str "ann@example.org",
    subject := .str "No subject",
    message := .str "No message provided",
    subscribed := true }

/-- A cache entry written at time 1000. -/
def sampleEntry : CacheEntry := { data := [sampleSubmission], timestamp := 1000 }

/-- A storage holding `sampleEntry`. -/
def cachedStorage : Storage := { slot := some (.entry sampleEntry), writeFails := false }

/-- An empty storage. -/
def emptyStorage : Storage := { slot := none, writeFails := false }

/-- An empty storage that refuses every write. -/
def fullStorage : Storage := { slot := none, writeFails := true }

/-- A storage whose slot holds text that `JSON.parse` rejects. -/
def corruptStorage : Storage := { slot := some .unparsable, writeFails := false }

/-- A storage whose slot holds `{}` and that refuses every write. -/
def shapelessStorage : Storage := { slot := some .noTimestamp, writeFails := true }

/-- A network on which every request is rejected. -/
def offline : Net := fun _ => .rejected 0 "Failed to fetch"

/-- A network on which every source answers with one record. -/
def online : Net := fun _ => .resolved (.arr [.obj [("email", .str "ann@example.org")]])

/-- A network on which the first source is unreachable and every other source
answers with one record. -/
def firstDown : Net := fun url =>
  if url = "https://script.google.com/macros/s/AKfycby4kMORYTPDmHJr3iaFK05KP4CBNvDGFHub5Xr2xSiOM4BWB0GRZlIFtryUYs3395AT/exec"
  then .rejected 0 "Failed to fetch"
  else .resolved (.arr [.obj [("email", .str "ann@example.org")]])

/-- A network on which the first source answers with one record and every other
source with an empty array. -/
def firstOnly : Net := fun url =>
  if url = "https://script.google.com/macros/s/AKfycby4kMORYTPDmHJr3iaFK05KP4CBNvDGFHub5Xr2xSiOM4BWB0GRZlIFtryUYs3395AT/exec"
  then .resolved (.arr [.obj [("email", .str "ann@example.org")]])
  else .resolved (.arr [])

/-- A network on which the first source answers with two records, the fourth with
two other records, and every other source with an empty array. -/
def twoBusy : Net := fun url =>
  if url = "https://script.google.com/macros/s/AKfycby4kMORYTPDmHJr3iaFK05KP4CBNvDGFHub5Xr2xSiOM4BWB0GRZlIFtryUYs3395AT/exec"
  then .resolved (.arr [.obj [("email", .str "ann@example.org")],
                        .obj [("email", .str "bob@example.org")]])
  else if url = "https://script.google.com/macros/s/AKfycbxPingtSPIPmWQnzicm3MTKNEKJkAcxbY3z-ytPYm15319ZP1pAu_kh_5YvqG35CxoP/exec"
  then .resolved (.arr [.obj [("name", .str "Cy"), ("email", .str "cy@example.org")],
                        .obj [("name", .str "Dee"), ("email", .str "dee@example.org")]])
  else .resolved (.arr [])

/-- Clock readings. -/
def clockAt (ms : Int) : Clock := { getTime := ms, toISOString := "2024-01-01T00:00:00.000Z" }

/-- The number of records a source contributes when its request succeeds with an
array, and zero otherwise. -/
def recordCount : Outcome → Nat
  | .resolved (.arr items) => items.length
  | _ => 0

/-- The body of a fulfilled request. -/
def bodyOf : Outcome → JVal
  | .resolved body => body
  | .rejected _ _ => .null

/-- The length of an array body. -/
def bodyCount : JVal → Nat
  | .arr items => items.length
  | _ => 0

/-- The value of a decimal digit character. -/
def digitValue (c : Char) : Nat := c.toNat - 48

/-- The number written by a list of decimal digits. -/
def readDigits (acc : Nat) (ds : List Char) : Nat :=
  ds.foldl (fun a c => a * 10 + digitValue c) acc

/-- The items of an array body, none for any other outcome. -/
def itemsOf : Outcome → List JVal
  | .resolved (.arr items) => items
  | _ => []

/-- The record that the aggregator makes of an item fetched from the source
called `name`. -/
def tagged (name : String) (item : JVal) : RawRecord :=
  setField "_source" (.str name) (spread item)

/-- The string `s` contains `needle` as a contiguous run of characters. -/
def IsSubstring (needle s : String) : Prop :=
  ∃ before after : List Char, s.toList = before ++ needle.toList ++ after

/-- The property `key` of the record is present with the truthy value `v`. -/
def HasTruthy (key : String) (item : RawRecord) (v : JVal) : Prop :=
  getField key item = some v ∧ truthy v = true

/-- The property `key` of the record is absent or holds a falsy value (the empty
string, `0`, `false` or `null`). -/
def LacksTruthy (key : String) (item : RawRecord) : Prop :=
  ∀ v, getField key item = some v → truthy v = false

/-- Two submissions agree on every field other than `submittedAt`. -/
def SameButSubmittedAt (a b : Submission) : Prop :=
  b = { a with submittedAt := b.submittedAt }

/-- What two runs of the normalizer, at the clock readings `iso1` and `iso2`, make
of the record `r`: the submissions `a` and `b` agree on every field other than
`submittedAt`; when the record's `timestamp` is truthy both carry it; when it is
absent or falsy each carries the clock reading of its run, and the two differ when
the readings differ. -/
def RunsAgree (iso1 iso2 : String) (r : RawRecord) (a b : Submission) : Prop :=
  SameButSubmittedAt a b ∧
  (∀ v, HasTruthy "timestamp" r v → a.submittedAt = v ∧ b.submittedAt = v) ∧
  (LacksTruthy "timestamp" r →
    a.submittedAt = .str iso1 ∧ b.submittedAt = .str iso2 ∧
    (iso1 ≠ iso2 → a.submittedAt ≠ b.submittedAt))

/-- A tagged record with an empty `timestamp` cell and a `message` cell holding the
number zero. -/
def sheetRow : RawRecord :=
  [("email", .str "ann@example.org"), ("timestamp", .str ""), ("message", .num 0),
   ("company", .str "Acme"),
   ("_source", .str "Contact Form Submission - Professional Edge Global")]

/-- A tagged record with every cell filled. -/
def fullRow : RawRecord :=
  [("name", .str "Ann"), ("email", .str "ann@example.org"), ("subject", .str "Hello"),
   ("message", .str "Hi there"), ("timestamp", .str "2023-05-05T10:00:00.000Z"),
   ("_source", .str "Contact Form Submission - S. Suresh & Associates")]

/-- A session written at time 1000. -/
def sampleSession : Session := { id := "session_abc123xyz", user := .str "admin", timestamp := 1000 }

/-- A session storage holding `sampleSession`. -/
def loggedIn : SessionStorage := some (.parsed (.session sampleSession))

/-- A storage holding `sampleEntry` that refuses every write. -/
def cachedFullStorage : Storage := { slot := some (.entry sampleEntry), writeFails := true }

/-- A lowering of the ASCII letters, standing for `toLowerCase` in the examples. -/
def asciiLower (s : String) : String := String.mk (s.toList.map Char.toLower)

/-- A date formatter that returns a text date as it is, standing for
`toLocaleDateString` in the examples. -/
def plainDate : JVal → Except String String
  | .str s => .ok s
  | _ => .error "Invalid time value"

/-- The value is a text or `null`. -/
def IsText (v : JVal) : Prop := v = .null ∨ ∃ t, v = .str t

/-- The decimal digits of an integer, standing for `Number.prototype.toString` in
the examples: the two agree on the integers below `2 ^ 53` in magnitude, and the
examples hold no other number. -/
def integerText (n : ℚ) : String := toString n.num

/-- A tagged record whose `name` cell holds a number. -/
def numberRow : RawRecord :=
  [("name", .num 5), ("email", .str "ann@example.org"),
   ("_source", .str "Contact Form Submission - Professional Edge Global")]

/-- A tagged record whose `email` cell holds a number. -/
def numericEmailRow : RawRecord :=
  [("name", .str "Bob"), ("email", .num 9800000000),
   ("_source", .str "Contact Form Submission - Professional Edge Global")]

/-- A normalized contact submission: the name holds double quotes, the email has no
`@` and the subject is a number. -/
def quotedSubmission : Submission :=
  { id := "2",
    sourceSite := .str "Contact Form Submission - Professional Edge Global",
    sourceUrl := "https://script.google.com/macros/s/AKfycbxPingtSPIPmWQnzicm3MTKNEKJkAcxbY3z-ytPYm15319ZP1pAu_kh_5YvqG35CxoP/exec",
    type := "contact",
    submittedAt := .str "2024-02-02T00:00:00.000Z",
    name := .str "Ann \"The Boss\" Lee",
    email := .str "No email",
    subject := .num 42,
    message := .str "Hi there",
    subscribed := true }

/-- A normalized subscription. -/
def thirdSubmission : Submission :=
  { id := "3",
    sourceSite := .str "Email Subscription List - Professional Edge Global",
    sourceUrl := "https://script.google.com/macros/s/AKfycbxCp-x-8CKOAGxO2A_0xw09tIXWoMLVBaaPxVhtDA-30Etw8mc2Mk1auK0yPdJML74/exec",
    type := "subscription",
    submittedAt := .str "2024-03-03T00:00:00.000Z",
    name := .str "Not provided",
    email := .str "cy@acme.com",
    subject := .str "No subject",
    message := .str "No message provided",
    subscribed := true }

/-- The fields of the submission that the Submissions page reads as texts are texts
(or `null`). -/
def TextFields (s : Submission) : Prop :=
  IsText s.name ∧ IsText s.email ∧ IsText s.subject ∧ IsText s.sourceSite

/-- The inverse of `replaceQuotes` on the inside of a quoted field, up to the
closing quote: a doubled quote gives one quote, a single quote must end the text. -/
def unescapeQuotes : List Char → Option (List Char)
  | [] => none
  | c :: rest =>
    if c = '"' then
      match rest with
      | [] => some []
      | d :: rest' => if d = '"' then (unescapeQuotes rest').map ('"' :: ·) else none
    else (unescapeQuotes rest).map (c :: ·)

/-- The text of a quoted CSV field: the field without its enclosing quotes and with
its doubled quotes undone. -/
def unquoteField (s : String) : Option String :=
  match s.toList with
  | c :: rest => if c = '"' then (unescapeQuotes rest).map String.mk else none
  | [] => none

/-- A page state after a failed refresh that fell back on the cache. -/
def staleState : PageState :=
  { submissions := [sampleSubmission], loading := false,
    error := some "Failed to fetch fresh data. Showing cached data." }

/-! ## Lemmas on the cache read -/

theorem age_lt_iff (x : Int) :
    ((x : ℚ) / (1000 * 60) < CACHE_EXPIRY_MINUTES) ↔ x < 300000 := by
  unfold CACHE_EXPIRY_MINUTES
  rw [div_lt_iff₀ (by norm_num)]
  norm_num
  exact_mod_cast Iff.rfl

theorem getCachedData_entry (st : Storage) (e : CacheEntry) (now : Int)
    (h : st.slot = some (.entry e)) :
    getCachedData st now =
      if now - e.timestamp < 300000 then .ok (some e) else .ok none := by
  simp only [getCachedData, h, age_lt_iff]

theorem getCachedData_none (st : Storage) (now : Int) (h : st.slot = none) :
    getCachedData st now = .ok none := by
  simp only [getCachedData, h]

theorem getCachedData_noTimestamp (st : Storage) (now : Int)
    (h : st.slot = some .noTimestamp) : getCachedData st now = .ok none := by
  simp only [getCachedData, h]

theorem getCachedData_unparsable (st : Storage) (now : Int)
    (h : st.slot = some .unparsable) :
    getCachedData st now = .error "Unexpected token in JSON" := by
  simp only [getCachedData, h]

/-- The cache read raises only on an unparsable slot. -/
theorem getCachedData_ok_of_parsable (st : Storage) (now : Int)
    (h : st.slot ≠ some .unparsable) : ∃ r, getCachedData st now = .ok r := by
  rcases hs : st.slot with _ | slot
  · exact ⟨none, getCachedData_none st now hs⟩
  · cases slot with
    | unparsable => exact absurd hs h
    | noTimestamp => exact ⟨none, getCachedData_noTimestamp st now hs⟩
    | entry e =>
      rw [getCachedData_entry st e now hs]
      by_cases hlt : now - e.timestamp < 300000
      · exact ⟨some e, by simp [hlt]⟩
      · exact ⟨none, by simp [hlt]⟩

/-! ## Lemmas on `fetchFreshData` -/

/-- What a successful `try` block has done. -/
theorem tryBlock_ok (net : Net) (clock : Clock) (st : Storage) (r : Result) (st' : Storage)
    (h : fetchFreshData.tryBlock net clock st = .ok (r, st')) :
    st.writeFails = false ∧
    (∃ raw, fetchAllData net = .ok raw ∧ transformData clock.toISOString raw = .ok r.data) ∧
    r = { data := r.data, error := none, timestamp := clock.getTime, isCached := none } ∧
    st' = { slot := some (.entry { data := r.data, timestamp := clock.getTime }),
            writeFails := false } := by
  unfold fetchFreshData.tryBlock at h
  split at h
  · exact absurd h (by simp)
  · rename_i raw hraw
    split at h
    · exact absurd h (by simp)
    · rename_i D hD
      unfold setItem at h
      by_cases hw : st.writeFails = true
      · simp [hw] at h
      · have hw' : st.writeFails = false := by simpa using hw
        simp only [hw', Bool.false_eq_true, if_false, Except.ok.injEq, Prod.mk.injEq] at h
        obtain ⟨hr, hst⟩ := h
        subst hr
        subst hst
        exact ⟨hw', ⟨raw, hraw, hD⟩, rfl, rfl⟩

/-- The failure path of `fetchFreshData`. -/
theorem fetchFreshData_of_error (net : Net) (clock : Clock) (st : Storage) (m : String)
    (h : fetchFreshData.tryBlock net clock st = .error m) :
    fetchFreshData net clock st =
      match getCachedData st clock.getTime with
      | .error e => (.error e, st)
      | .ok (some cached) =>
        (.ok { data := cached.data,
               error := some "Failed to fetch fresh data. Showing cached data.",
               timestamp := cached.timestamp, isCached := none }, st)
      | .ok none =>
        (.ok { data := [], error := some m, timestamp := clock.getTime,
               isCached := none }, st) := by
  simp only [fetchFreshData, h]

/-- The success path of `fetchFreshData`. -/
theorem fetchFreshData_of_ok (net : Net) (clock : Clock) (st : Storage) (r : Result)
    (st' : Storage) (h : fetchFreshData.tryBlock net clock st = .ok (r, st')) :
    fetchFreshData net clock st = (.ok r, st') := by
  simp only [fetchFreshData, h]

/-- A result without error comes from the success path. -/
theorem tryBlock_of_no_error (net : Net) (clock : Clock) (st : Storage) (r : Result)
    (st' : Storage) (h : fetchFreshData net clock st = (.ok r, st'))
    (hsucc : r.error = none) :
    fetchFreshData.tryBlock net clock st = .ok (r, st') := by
  rcases ht : fetchFreshData.tryBlock net clock st with m | ⟨r0, st0⟩
  · rw [fetchFreshData_of_error net clock st m ht] at h
    rcases hc : getCachedData st clock.getTime with e | c
    · rw [hc] at h
      simp at h
    · cases c with
      | none =>
        rw [hc] at h
        simp only [Prod.mk.injEq, Except.ok.injEq] at h
        rw [← h.1] at hsucc
        simp at hsucc
      | some cached =>
        rw [hc] at h
        simp only [Prod.mk.injEq, Except.ok.injEq] at h
        rw [← h.1] at hsucc
        simp at hsucc
  · rw [fetchFreshData_of_ok net clock st r0 st0 ht] at h
    simp only [Prod.mk.injEq, Except.ok.injEq] at h
    rw [h.1, h.2]

/-- The function `fetchFreshData` raises only when the slot is unparsable. -/
theorem fetchFreshData_ok_of_parsable (net : Net) (clock : Clock) (st : Storage)
    (h : st.slot ≠ some .unparsable) : ∃ r, (fetchFreshData net clock st).1 = .ok r := by
  rcases ht : fetchFreshData.tryBlock net clock st with m | ⟨r0, st0⟩
  · rw [fetchFreshData_of_error net clock st m ht]
    obtain ⟨c, hc⟩ := getCachedData_ok_of_parsable st clock.getTime h
    rw [hc]
    cases c with
    | none => exact ⟨_, rfl⟩
    | some cached => exact ⟨_, rfl⟩
  · rw [fetchFreshData_of_ok net clock st r0 st0 ht]
    exact ⟨r0, rfl⟩

/-! ## Lemmas on the aggregator -/

theorem getField_setField (key : String) (value : JVal) (o : JObject) :
    getField key (setField key value o) = some value := by
  induction o with
  | nil => simp [setField, getField]
  | cons p rest ih =>
    obtain ⟨k, v⟩ := p
    by_cases hk : k = key
    · simp [setField, getField, hk]
    · simp [setField, getField, hk, ih]

theorem mapM_ok {α β : Type} (f : α → β) (l : List α) :
    l.mapM (fun a => (Except.ok (f a) : Except String β)) = .ok (l.map f) := by
  induction l with
  | nil => rfl
  | cons a rest ih =>
    rw [List.mapM_cons, ih]
    rfl

/-- Tagging an array body at a registered position succeeds, keeps the number of
items and gives every record a string `_source`. -/
theorem tagItems_arr (index : Nat) (items : List JVal) (h : index < dataSources.length) :
    ∃ out, tagItems index (.arr items) = .ok out ∧ out.length = items.length ∧
      ∀ r ∈ out, ∃ s, getField "_source" r = some (.str s) := by
  refine ⟨items.map fun item =>
    setField "_source" (.str (dataSources.get ⟨index, h⟩).name) (spread item), ?_, ?_, ?_⟩
  · simp only [tagItems, List.getElem?_eq_getElem h]
    exact mapM_ok _ items
  · simp
  · intro r hr
    obtain ⟨item, _, rfl⟩ := List.mem_map.mp hr
    exact ⟨_, getField_setField _ _ _⟩

theorem flatMapTagged_arrays (bs : List JVal) :
    ∀ index, index + bs.length ≤ dataSources.length →
      (∀ b ∈ bs, ∃ items, b = .arr items) →
      ∃ out, flatMapTagged index bs = .ok out ∧
        out.length = (bs.map bodyCount).sum ∧
        ∀ r ∈ out, ∃ s, getField "_source" r = some (.str s) := by
  induction bs with
  | nil =>
    intro index _ _
    exact ⟨[], rfl, rfl, by simp⟩
  | cons b rest ih =>
    intro index hlen hall
    obtain ⟨items, rfl⟩ := hall b (List.mem_cons_self _ _)
    have hidx : index < dataSources.length := by
      simp only [List.length_cons] at hlen
      omega
    obtain ⟨tagged, htag, hlenTag, hsrcTag⟩ := tagItems_arr index items hidx
    obtain ⟨more, hmore, hlenMore, hsrcMore⟩ := ih (index + 1)
      (by simp only [List.length_cons] at hlen; omega)
      (fun b hb => hall b (List.mem_cons_of_mem _ hb))
    refine ⟨tagged ++ more, ?_, ?_, ?_⟩
    · simp only [flatMapTagged, htag, hmore]
    · simp [hlenTag, hlenMore, bodyCount]
    · intro r hr
      rcases List.mem_append.mp hr with h1 | h2
      · exact hsrcTag r h1
      · exact hsrcMore r h2

theorem promiseAll_resolved (bs : List JVal) :
    promiseAll (bs.map Outcome.resolved) = .ok bs := by
  have h1 : ∀ l : List JVal, firstRejected (l.map Outcome.resolved) = none := by
    intro l
    induction l with
    | nil => rfl
    | cons b rest ih => simpa [firstRejected] using ih
  have h2 : ∀ l : List JVal, bodies (l.map Outcome.resolved) = l := by
    intro l
    induction l with
    | nil => rfl
    | cons b rest ih => simp [bodies, ih]
  simp only [promiseAll, h1, h2]

theorem firstRejected_of_rejected (ps : List Outcome)
    (h : ∃ p ∈ ps, ∃ t m, p = Outcome.rejected t m) :
    ∃ tm, firstRejected ps = some tm := by
  induction ps with
  | nil =>
    obtain ⟨p, hp, _⟩ := h
    simp at hp
  | cons q rest ih =>
    cases q with
    | rejected t m =>
      simp only [firstRejected]
      rcases firstRejected rest with _ | ⟨t', m'⟩
      · exact ⟨_, rfl⟩
      · by_cases hlt : t' < t
        · exact ⟨(t', m'), by simp [hlt]⟩
        · exact ⟨(t, m), by simp [hlt]⟩
    | resolved b =>
      simp only [firstRejected]
      apply ih
      obtain ⟨p, hp, t, m, hpe⟩ := h
      rcases List.mem_cons.mp hp with h1 | h2
      · rw [h1] at hpe
        cases hpe
      · exact ⟨p, h2, t, m, hpe⟩

/-- When every registered source answers with an array, the aggregator succeeds,
its output has the summed length and every record has a string `_source`. -/
theorem fetchAllData_all_resolved (net : Net)
    (h : ∀ s ∈ dataSources, ∃ items, net s.url = .resolved (.arr items)) :
    ∃ out, fetchAllData net = .ok out ∧
      out.length = (dataSources.map fun s => recordCount (net s.url)).sum ∧
      ∀ r ∈ out, ∃ s, getField "_source" r = some (.str s) := by
  have hmap : (dataSources.map fun s => net s.url) =
      (dataSources.map fun s => bodyOf (net s.url)).map Outcome.resolved := by
    rw [List.map_map]
    apply List.map_congr_left
    intro s hs
    obtain ⟨items, hi⟩ := h s hs
    simp [hi, bodyOf]
  have hcount : (dataSources.map fun s => recordCount (net s.url)) =
      (dataSources.map fun s => bodyOf (net s.url)).map bodyCount := by
    rw [List.map_map]
    apply List.map_congr_left
    intro s hs
    obtain ⟨items, hi⟩ := h s hs
    simp [hi, bodyOf, bodyCount, recordCount]
  obtain ⟨out, hout, hlen, hsrc⟩ := flatMapTagged_arrays
    (dataSources.map fun s => bodyOf (net s.url)) 0 (by simp)
    (by
      intro b hb
      obtain ⟨s, hs, rfl⟩ := List.mem_map.mp hb
      obtain ⟨items, hi⟩ := h s hs
      exact ⟨items, by simp [hi, bodyOf]⟩)
  refine ⟨out, ?_, ?_, hsrc⟩
  · simp only [fetchAllData, hmap, promiseAll_resolved, hout]
  · rw [hlen, hcount]

/-- When some registered source is rejected, the aggregator rethrows. -/
theorem fetchAllData_of_rejected (net : Net)
    (h : ∃ s ∈ dataSources, ∃ t m, net s.url = .rejected t m) :
    ∃ m, fetchAllData net = .error m := by
  obtain ⟨s, hs, t, m, hsm⟩ := h
  obtain ⟨⟨t', m'⟩, hfr⟩ := firstRejected_of_rejected (dataSources.map fun s => net s.url)
    ⟨net s.url, List.mem_map.mpr ⟨s, hs, rfl⟩, t, m, hsm⟩
  exact ⟨m', by simp only [fetchAllData, promiseAll, hfr]⟩

/-! ## Lemmas on the normalizer -/

theorem digitValue_digitChar (m : Nat) (h : m < 10) : digitValue (Nat.digitChar m) = m := by
  interval_cases m <;> rfl

theorem readDigits_cons (acc : Nat) (c : Char) (ds : List Char) :
    readDigits acc (c :: ds) = readDigits (acc * 10 + digitValue c) ds := rfl

theorem readDigits_toDigitsCore (fuel : Nat) :
    ∀ (n : Nat) (ds : List Char), n < fuel →
      readDigits 0 (Nat.toDigitsCore 10 fuel n ds) = readDigits n ds := by
  induction fuel with
  | zero =>
    intro n ds h
    omega
  | succ fuel ih =>
    intro n ds h
    simp only [Nat.toDigitsCore]
    split
    · rename_i hq
      rw [readDigits_cons, digitValue_digitChar _ (Nat.mod_lt _ (by norm_num))]
      congr 1
      omega
    · rename_i hq
      rw [ih (n / 10) _ (by omega), readDigits_cons,
        digitValue_digitChar _ (Nat.mod_lt _ (by norm_num))]
      congr 1
      omega

/-- The decimal string of a natural number determines the number. -/
theorem toString_nat_injective (a b : Nat) (h : toString a = toString b) : a = b := by
  have hd : Nat.toDigits 10 a = Nat.toDigits 10 b := by
    have := congrArg String.data h
    exact this
  have ha := readDigits_toDigitsCore (a + 1) a [] (Nat.lt_succ_self a)
  have hb := readDigits_toDigitsCore (b + 1) b [] (Nat.lt_succ_self b)
  have ha' : readDigits 0 (Nat.toDigits 10 a) = a := ha
  have hb' : readDigits 0 (Nat.toDigits 10 b) = b := hb
  rw [← ha', ← hb', hd]

/-- On a record with a string `_source` the callback succeeds and numbers the
submission by its position. -/
theorem transformItem_ok (nowIso : String) (item : RawRecord) (index : Nat) (s : String)
    (h : getField "_source" item = some (.str s)) :
    ∃ sub, transformItem nowIso item index = .ok sub ∧ sub.id = toString (index + 1) := by
  simp only [transformItem, h, includes]
  cases containsSub "Subscription".toList s.toList
  · cases containsSub "Consultation".toList s.toList
    · exact ⟨_, rfl, rfl⟩
    · exact ⟨_, rfl, rfl⟩
  · exact ⟨_, rfl, rfl⟩

theorem transformFrom_ok (nowIso : String) (recs : List RawRecord) :
    ∀ index, (∀ r ∈ recs, ∃ s, getField "_source" r = some (.str s)) →
      ∃ subs, transformFrom nowIso index recs = .ok subs ∧
        subs.map (fun sub => sub.id) =
          (List.range recs.length).map fun k => toString (index + k + 1) := by
  induction recs with
  | nil =>
    intro index _
    exact ⟨[], rfl, rfl⟩
  | cons item rest ih =>
    intro index hall
    obtain ⟨s, hs⟩ := hall item (List.mem_cons_self _ _)
    obtain ⟨first, hfirst, hid⟩ := transformItem_ok nowIso item index s hs
    obtain ⟨others, hothers, hids⟩ := ih (index + 1)
      (fun r hr => hall r (List.mem_cons_of_mem _ hr))
    refine ⟨first :: others, ?_, ?_⟩
    · simp only [transformFrom, hfirst, hothers]
    · rw [List.map_cons, hid, hids, List.length_cons, List.range_succ_eq_map, List.map_cons,
        List.map_map]
      congr 1
      apply List.map_congr_left
      intro k _
      simp only [Function.comp]
      congr 1
      omega

/-! ## The fallback of `fetchFreshData` (C1, C8) -/

/-- C1, counterexample: the storage holds an entry written at time 1000 with one
submission, the clock reads 301000 (the entry is exactly 300000 ms old) and every
request is rejected. The `try` block fails, and `fetchFreshData` returns the empty
array with the failure message and the current time, not the cached data. -/
theorem fetchFreshData_expired_entry_counterexample :
    cachedStorage.slot = some (.entry sampleEntry) ∧
    sampleEntry.data ≠ [] ∧
    fetchFreshData.tryBlock offline (clockAt 301000) cachedStorage = .error "Failed to fetch" ∧
    fetchFreshData offline (clockAt 301000) cachedStorage =
      (.ok { data := [], error := some "Failed to fetch", timestamp := 301000,
             isCached := none }, cachedStorage) := by
  refine ⟨rfl, by simp [sampleEntry], rfl, ?_⟩
  rw [fetchFreshData_of_error offline (clockAt 301000) cachedStorage "Failed to fetch" rfl,
    getCachedData_entry cachedStorage sampleEntry _ rfl]
  rfl

/-- C1, amended: when the `try` block fails with message `m` and the slot holds an
entry, `fetchFreshData` returns the entry's data, the fixed error text and the
entry's timestamp if the entry is younger than 5 * 60000 ms at the time of the
fallback; if the entry is older it is treated as absent and the result is the
empty array with error `m` and the current time. The storage is left as it was. -/
theorem fetchFreshData_fallback (net : Net) (clock : Clock) (st : Storage) (e : CacheEntry)
    (m : String) (hslot : st.slot = some (.entry e))
    (hfail : fetchFreshData.tryBlock net clock st = .error m) :
    (clock.getTime - e.timestamp < 5 * 60000 →
      fetchFreshData net clock st =
        (.ok { data := e.data,
               error := some "Failed to fetch fresh data. Showing cached data.",
               timestamp := e.timestamp, isCached := none }, st)) ∧
    (5 * 60000 ≤ clock.getTime - e.timestamp →
      fetchFreshData net clock st =
        (.ok { data := [], error := some m, timestamp := clock.getTime,
               isCached := none }, st)) := by
  rw [fetchFreshData_of_error net clock st m hfail, getCachedData_entry st e _ hslot]
  constructor
  · intro h
    have h' : clock.getTime - e.timestamp < 300000 := by omega
    simp only [h', if_true]
  · intro h
    have h' : ¬ clock.getTime - e.timestamp < 300000 := by omega
    simp only [h', if_false]

/-- C1, witness: an entry aged 299999 ms is served when every request is rejected. -/
theorem fetchFreshData_fallback_witness :
    fetchFreshData offline (clockAt 300999) cachedStorage =
      (.ok { data := [sampleSubmission],
             error := some "Failed to fetch fresh data. Showing cached data.",
             timestamp := 1000, isCached := none }, cachedStorage) :=
  (fetchFreshData_fallback offline (clockAt 300999) cachedStorage sampleEntry
    "Failed to fetch" rfl rfl).1 (by decide)

/-- C8: when the `try` block fails with message `m` and the storage holds no item
under the cache key, `fetchFreshData` returns the empty array, error `m` and the
current time. -/
theorem fetchFreshData_no_cache (net : Net) (clock : Clock) (st : Storage) (m : String)
    (hslot : st.slot = none)
    (hfail : fetchFreshData.tryBlock net clock st = .error m) :
    ∃ r, (fetchFreshData net clock st).1 = .ok r ∧
      r.data = [] ∧ r.error = some m ∧ r.timestamp = clock.getTime := by
  rw [fetchFreshData_of_error net clock st m hfail, getCachedData_none st _ hslot]
  exact ⟨_, rfl, rfl, rfl, rfl⟩

/-- C8, witness: every request rejected, empty storage. -/
theorem fetchFreshData_no_cache_witness :
    ∃ r, (fetchFreshData offline (clockAt 5000) emptyStorage).1 = .ok r ∧
      r.data = [] ∧ r.error = some "Failed to fetch" ∧ r.timestamp = 5000 :=
  fetchFreshData_no_cache offline (clockAt 5000) emptyStorage "Failed to fetch" rfl rfl

/-! ## The cache read (C5, C6) -/

/-- C5: `getCachedData` returns the stored entry exactly when an entry is stored
and `now - timestamp < 5 * 60000`; with no item, or with an entry aged 300000 ms
or more, it returns `null` in both cases alike. -/
theorem getCachedData_spec (st : Storage) (now : Int) :
    (∀ e, getCachedData st now = .ok (some e) ↔
      (st.slot = some (.entry e) ∧ now - e.timestamp < 5 * 60000)) ∧
    (st.slot = none → getCachedData st now = .ok none) ∧
    (∀ e, st.slot = some (.entry e) → 300000 ≤ now - e.timestamp →
      getCachedData st now = .ok none) := by
  refine ⟨?_, getCachedData_none st now, ?_⟩
  · intro e
    constructor
    · intro h
      rcases hs : st.slot with _ | slot
      · rw [getCachedData_none st now hs] at h
        simp at h
      · cases slot with
        | unparsable =>
          rw [getCachedData_unparsable st now hs] at h
          simp at h
        | noTimestamp =>
          rw [getCachedData_noTimestamp st now hs] at h
          simp at h
        | entry e' =>
          rw [getCachedData_entry st e' now hs] at h
          by_cases hlt : now - e'.timestamp < 300000
          · simp only [hlt, if_true, Except.ok.injEq, Option.some.injEq] at h
            subst h
            exact ⟨rfl, by omega⟩
          · simp [hlt] at h
    · rintro ⟨hs, hlt⟩
      have hlt' : now - e.timestamp < 300000 := by omega
      rw [getCachedData_entry st e now hs]
      simp only [hlt', if_true]
  · intro e hs hge
    have hge' : ¬ now - e.timestamp < 300000 := by omega
    rw [getCachedData_entry st e now hs]
    simp only [hge', if_false]

/-- C5, witness: an entry written at 1000 is returned at 300999 and not at 301000. -/
theorem getCachedData_spec_witness :
    getCachedData cachedStorage 300999 = .ok (some sampleEntry) ∧
    getCachedData cachedStorage 301000 = .ok none ∧
    getCachedData emptyStorage 301000 = .ok none :=
  ⟨((getCachedData_spec cachedStorage 300999).1 sampleEntry).2 ⟨rfl, by decide⟩,
   (getCachedData_spec cachedStorage 301000).2.2 sampleEntry rfl (by decide),
   (getCachedData_spec emptyStorage 301000).2.1 rfl⟩

/-- C6: after a successful `fetchFreshData` at time `T` (a result without error)
that returned the data `S`, `getCachedData` returns `{data: S, timestamp: T}` at
`T + 299000`, returns `null` at `T + 301000`, and at any time `now` it returns the
entry exactly when `now < T + 300000`. -/
theorem cache_round_trip (net : Net) (clock : Clock) (st st' : Storage) (r : Result)
    (h : fetchFreshData net clock st = (.ok r, st')) (hsucc : r.error = none) :
    getCachedData st' (clock.getTime + 299000) =
      .ok (some { data := r.data, timestamp := clock.getTime }) ∧
    getCachedData st' (clock.getTime + 301000) = .ok none ∧
    ∀ now, getCachedData st' now =
      if now < clock.getTime + 300000 then
        .ok (some { data := r.data, timestamp := clock.getTime })
      else .ok none := by
  obtain ⟨_, _, _, hst⟩ := tryBlock_ok net clock st r st'
    (tryBlock_of_no_error net clock st r st' h hsucc)
  have hslot : st'.slot = some (.entry { data := r.data, timestamp := clock.getTime }) := by
    rw [hst]
  have key : ∀ now, getCachedData st' now =
      if now < clock.getTime + 300000 then
        .ok (some { data := r.data, timestamp := clock.getTime })
      else .ok none := by
    intro now
    rw [getCachedData_entry st' _ now hslot]
    by_cases hlt : now < clock.getTime + 300000
    · have hlt' : now - clock.getTime < 300000 := by omega
      simp only [hlt, hlt', if_true]
    · have hlt' : ¬ now - clock.getTime < 300000 := by omega
      simp only [hlt, hlt', if_false]
  refine ⟨?_, ?_, key⟩
  · rw [key]
    have : clock.getTime + 299000 < clock.getTime + 300000 := by omega
    simp only [this, if_true]
  · rw [key]
    have : ¬ clock.getTime + 301000 < clock.getTime + 300000 := by omega
    simp only [this, if_false]

/-- C6, witness: a fetch at time 1000 that normalizes one record, then the reads
at 300000 and 302000. -/
theorem cache_round_trip_witness :
    getCachedData
        { slot := some (.entry { data := [sampleSubmission], timestamp := 1000 }),
          writeFails := false } (1000 + 299000) =
      .ok (some { data := [sampleSubmission], timestamp := 1000 }) ∧
    getCachedData
        { slot := some (.entry { data := [sampleSubmission], timestamp := 1000 }),
          writeFails := false } (1000 + 301000) = .ok none :=
  have h := cache_round_trip firstOnly (clockAt 1000) emptyStorage
    { slot := some (.entry { data := [sampleSubmission], timestamp := 1000 }),
      writeFails := false }
    { data := [sampleSubmission], error := none, timestamp := 1000, isCached := none }
    rfl rfl
  ⟨h.1, h.2.1⟩

/-! ## The entry point `initializeData` (C2, C9, C4) -/

/-- C2, the code on a valid cache: when the slot holds an entry younger than
5 * 60000 ms, `initializeData` returns, whatever the network would answer, the
entry's data, no error and the entry's timestamp, leaves the storage as it was and
queues a background refresh; the returned object has no `isCached` property, so
the flag that `Dashboard.jsx` reads is `undefined`, not `true`. -/
theorem initializeData_cache_hit (net : Net) (clock later : Clock) (st : Storage)
    (e : CacheEntry) (hslot : st.slot = some (.entry e))
    (hvalid : clock.getTime - e.timestamp < 5 * 60000) :
    initializeData net clock later st =
      { result := .ok { data := e.data, error := none, timestamp := e.timestamp,
                        isCached := none },
        storage := st, refreshQueued := true } := by
  have h' : clock.getTime - e.timestamp < 300000 := by omega
  simp only [initializeData, getCachedData_entry st e _ hslot, h', if_true]

/-- C2, witness: a valid entry, with every request rejected and with every request
answered. -/
theorem initializeData_cache_hit_witness :
    (initializeData offline (clockAt 2000) (clockAt 3000) cachedStorage).result =
      .ok { data := [sampleSubmission], error := none, timestamp := 1000,
            isCached := none } ∧
    (initializeData online (clockAt 2000) (clockAt 3000) cachedStorage).result =
      .ok { data := [sampleSubmission], error := none, timestamp := 1000,
            isCached := none } :=
  ⟨congrArg InitReturn.result
      (initializeData_cache_hit offline (clockAt 2000) (clockAt 3000) cachedStorage
        sampleEntry rfl (by decide)),
   congrArg InitReturn.result
      (initializeData_cache_hit online (clockAt 2000) (clockAt 3000) cachedStorage
        sampleEntry rfl (by decide))⟩

/-- C9, the code without a valid cache: when the slot holds no item, or a value
without timestamp, or an entry aged 5 * 60000 ms or more, `initializeData` returns
exactly what `fetchFreshData` returns on that storage and leaves the storage as
`fetchFreshData` leaves it; the object it returns has no `isCached` property, so
the flag is `undefined`, not `false`. -/
theorem initializeData_cache_miss (net : Net) (clock later : Clock) (st : Storage)
    (hmiss : st.slot = none ∨ st.slot = some .noTimestamp ∨
      ∃ e, st.slot = some (.entry e) ∧ 5 * 60000 ≤ clock.getTime - e.timestamp) :
    (initializeData net clock later st).result = (fetchFreshData net later st).1 ∧
    (initializeData net clock later st).storage = (fetchFreshData net later st).2 ∧
    ∀ r, (initializeData net clock later st).result = .ok r → r.isCached = none := by
  have hread : getCachedData st clock.getTime = .ok none := by
    rcases hmiss with h | h | ⟨e, h, hage⟩
    · exact getCachedData_none st _ h
    · exact getCachedData_noTimestamp st _ h
    · have hage' : ¬ clock.getTime - e.timestamp < 300000 := by omega
      rw [getCachedData_entry st e _ h]
      simp only [hage', if_false]
  have hinit : initializeData net clock later st =
      { result := (fetchFreshData net later st).1,
        storage := (fetchFreshData net later st).2, refreshQueued := false } := by
    simp only [initializeData, hread]
  refine ⟨by rw [hinit], by rw [hinit], ?_⟩
  intro r hr
  rw [hinit] at hr
  simp only at hr
  rcases ht : fetchFreshData.tryBlock net later st with m | ⟨r0, st0⟩
  · rw [fetchFreshData_of_error net later st m ht] at hr
    rcases hc : getCachedData st later.getTime with e | c
    · rw [hc] at hr
      simp at hr
    · cases c with
      | none =>
        rw [hc] at hr
        simp only [Except.ok.injEq] at hr
        rw [← hr]
      | some cached =>
        rw [hc] at hr
        simp only [Except.ok.injEq] at hr
        rw [← hr]
  · rw [fetchFreshData_of_ok net later st r0 st0 ht] at hr
    simp only [Except.ok.injEq] at hr
    obtain ⟨_, _, hr0, _⟩ := tryBlock_ok net later st r0 st0 ht
    rw [← hr, hr0]

/-- C9, witness: an expired entry and an unreachable network. -/
theorem initializeData_cache_miss_witness :
    (initializeData offline (clockAt 400000) (clockAt 400500) cachedStorage).result =
      (fetchFreshData offline (clockAt 400500) cachedStorage).1 ∧
    ∀ r, (initializeData offline (clockAt 400000) (clockAt 400500) cachedStorage).result =
      .ok r → r.isCached = none :=
  have h := initializeData_cache_miss offline (clockAt 400000) (clockAt 400500) cachedStorage
    (Or.inr (Or.inr ⟨sampleEntry, rfl, by decide⟩))
  ⟨h.1, h.2.2⟩

/-- C4, counterexample: on a slot whose text `JSON.parse` rejects, `initializeData`
raises (whatever the network answers), and `fetchFreshData` raises when the
requests are rejected. -/
theorem unparsable_slot_raises_counterexample :
    (initializeData online (clockAt 2000) (clockAt 3000) corruptStorage).result =
      .error "Unexpected token in JSON" ∧
    (fetchFreshData offline (clockAt 2000) corruptStorage).1 =
      .error "Unexpected token in JSON" :=
  ⟨rfl, rfl⟩

/-- C4, amended: for every behaviour of the sources, every clock and every storage
(the write may fail). When the slot is not unparsable text (no item, a value
without timestamp, or an entry), `initializeData` and `fetchFreshData` raise no
exception: each returns a result object. When the slot holds text that `JSON.parse`
rejects, `getCachedData` throws; `initializeData` raises that exception, and
`fetchFreshData` raises it exactly when its `try` block (fetch, normalize, write)
has failed, and returns the fresh result when the block succeeds. -/
theorem no_exception_of_parsable (net : Net) (clock later : Clock) (st : Storage) :
    (st.slot ≠ some .unparsable →
      (∃ r, (initializeData net clock later st).result = .ok r) ∧
      (∃ r, (fetchFreshData net clock st).1 = .ok r)) ∧
    (st.slot = some .unparsable →
      ∃ e, getCachedData st clock.getTime = .error e ∧
        (initializeData net clock later st).result = .error e ∧
        (∀ m, fetchFreshData.tryBlock net clock st = .error m →
          (fetchFreshData net clock st).1 = .error e) ∧
        (∀ r st', fetchFreshData.tryBlock net clock st = .ok (r, st') →
          (fetchFreshData net clock st).1 = .ok r) ∧
        ((∃ e', (fetchFreshData net clock st).1 = .error e') ↔
          ∃ m, fetchFreshData.tryBlock net clock st = .error m)) := by
  constructor
  · intro h
    refine ⟨?_, fetchFreshData_ok_of_parsable net clock st h⟩
    obtain ⟨c, hc⟩ := getCachedData_ok_of_parsable st clock.getTime h
    cases c with
    | none =>
      simp only [initializeData, hc]
      exact fetchFreshData_ok_of_parsable net later st h
    | some cached =>
      simp only [initializeData, hc]
      exact ⟨_, rfl⟩
  · intro h
    have hc := getCachedData_unparsable st clock.getTime h
    have hraise : ∀ m, fetchFreshData.tryBlock net clock st = .error m →
        (fetchFreshData net clock st).1 = .error "Unexpected token in JSON" := by
      intro m hm
      rw [fetchFreshData_of_error net clock st m hm, hc]
    have hback : ∀ r st', fetchFreshData.tryBlock net clock st = .ok (r, st') →
        (fetchFreshData net clock st).1 = .ok r := by
      intro r st' hok
      rw [fetchFreshData_of_ok net clock st r st' hok]
    refine ⟨_, hc, ?_, hraise, hback, ?_⟩
    · simp only [initializeData, hc]
    · constructor
      · rintro ⟨e', he'⟩
        rcases ht : fetchFreshData.tryBlock net clock st with m | ⟨r0, st0⟩
        · exact ⟨m, rfl⟩
        · rw [hback r0 st0 ht] at he'
          exact absurd he' (by simp)
      · rintro ⟨m, hm⟩
        exact ⟨_, hraise m hm⟩

/-- C4, witness: on a slot holding `{}` with a storage that refuses the write and
sources that all answer, both functions return a result; on a slot holding text that
`JSON.parse` rejects and an unreachable network, both raise the parse error. -/
theorem no_exception_of_parsable_witness :
    ((∃ r, (initializeData online (clockAt 2000) (clockAt 3000) shapelessStorage).result =
        .ok r) ∧
      (∃ r, (fetchFreshData online (clockAt 2000) shapelessStorage).1 = .ok r)) ∧
    ∃ e, getCachedData corruptStorage 2000 = .error e ∧
      (initializeData offline (clockAt 2000) (clockAt 3000) corruptStorage).result =
        .error e ∧
      (fetchFreshData offline (clockAt 2000) corruptStorage).1 = .error e :=
  ⟨(no_exception_of_parsable online (clockAt 2000) (clockAt 3000) shapelessStorage).1
      (by simp [shapelessStorage]),
    match (no_exception_of_parsable offline (clockAt 2000) (clockAt 3000) corruptStorage).2
      rfl with
    | ⟨e, hc, hinit, hraise, _, _⟩ => ⟨e, hc, hinit, hraise "Failed to fetch" rfl⟩⟩

/-! ## The aggregator (C3) -/

/-- C3, counterexample: the first source is unreachable and each of the other five
answers with one record. The aggregator fails with the rejection's message, while
the successful sources count five records. -/
theorem fetchAllData_one_source_down_counterexample :
    fetchAllData firstDown = .error "Failed to fetch" ∧
    (dataSources.map fun s => recordCount (firstDown s.url)).sum = 5 :=
  ⟨rfl, rfl⟩

/-- C3, amended: when every registered source answers with an array of records,
`fetchAllData` does not fail and the length of its output is the sum of the record
counts of the sources; when the request of some registered source is rejected,
`fetchAllData` fails as a whole. -/
theorem fetchAllData_length (net : Net) :
    ((∀ s ∈ dataSources, ∃ items, net s.url = .resolved (.arr items)) →
      ∃ out, fetchAllData net = .ok out ∧
        out.length = (dataSources.map fun s => recordCount (net s.url)).sum) ∧
    ((∃ s ∈ dataSources, ∃ t m, net s.url = .rejected t m) →
      ∃ m, fetchAllData net = .error m) := by
  constructor
  · intro h
    obtain ⟨out, hout, hlen, _⟩ := fetchAllData_all_resolved net h
    exact ⟨out, hout, hlen⟩
  · exact fetchAllData_of_rejected net

/-- C3, witness: six sources with one record each. -/
theorem fetchAllData_length_witness :
    ∃ out, fetchAllData online = .ok out ∧
      out.length = (dataSources.map fun s => recordCount (online s.url)).sum :=
  (fetchAllData_length online).1 (fun _ _ => ⟨_, rfl⟩)

/-! ## The success path of `fetchFreshData` (C7) -/

/-- C7, counterexample: every source answers, but the storage refuses the write.
The `try` block fails at `setItem`; `fetchFreshData` returns the empty array with
the storage's error message and the slot stays empty. -/
theorem fetchFreshData_write_fails_counterexample :
    (∀ s ∈ dataSources, ∃ items, online s.url = .resolved (.arr items)) ∧
    fetchFreshData online (clockAt 2000) fullStorage =
      (.ok { data := [], error := some "The quota has been exceeded.", timestamp := 2000,
             isCached := none }, fullStorage) :=
  ⟨fun _ _ => ⟨_, rfl⟩, rfl⟩

/-- C7, amended: when every registered source answers with an array of records
and the storage accepts the write, then for every prior content of the slot
`fetchFreshData` returns the normalizer's output on the aggregator's output, no
error and the current time, and afterwards the slot holds exactly that data with
the current time. -/
theorem fetchFreshData_success (net : Net) (clock : Clock) (st : Storage)
    (hnet : ∀ s ∈ dataSources, ∃ items, net s.url = .resolved (.arr items))
    (hwrite : st.writeFails = false) :
    ∃ raw D, fetchAllData net = .ok raw ∧ transformData clock.toISOString raw = .ok D ∧
      fetchFreshData net clock st =
        (.ok { data := D, error := none, timestamp := clock.getTime, isCached := none },
         { slot := some (.entry { data := D, timestamp := clock.getTime }),
           writeFails := false }) := by
  obtain ⟨raw, hraw, _, hsrc⟩ := fetchAllData_all_resolved net hnet
  obtain ⟨D, hD, _⟩ := transformFrom_ok clock.toISOString raw 0 hsrc
  refine ⟨raw, D, hraw, hD, ?_⟩
  apply fetchFreshData_of_ok
  have hD' : transformData clock.toISOString raw = .ok D := hD
  simp only [fetchFreshData.tryBlock, hraw, hD', setItem, hwrite, Bool.false_eq_true, if_false]

/-- C7, witness: the first source answers with one record while the slot holds
another entry, which is overwritten. -/
theorem fetchFreshData_success_witness :
    ∃ raw D, fetchAllData firstOnly = .ok raw ∧
      transformData (clockAt 9000).toISOString raw = .ok D ∧
      fetchFreshData firstOnly (clockAt 9000) cachedStorage =
        (.ok { data := D, error := none, timestamp := (clockAt 9000).getTime,
               isCached := none },
         { slot := some (.entry { data := D, timestamp := (clockAt 9000).getTime }),
           writeFails := false }) :=
  fetchFreshData_success firstOnly (clockAt 9000) cachedStorage
    (fun s _ => by
      unfold firstOnly
      split
      · exact ⟨_, rfl⟩
      · exact ⟨_, rfl⟩)
    rfl

/-! ## The ids given by the normalizer (C10) -/

/-- C10: on every sequence of `n` records that carry a string `_source`,
`transformData` returns `n` submissions, the one at position `k` (from 0) has the
decimal string of `k + 1` as id, so the ids are "1", ..., "n" in order, and they
are pairwise distinct. -/
theorem transformData_ids (nowIso : String) (recs : List RawRecord)
    (h : ∀ r ∈ recs, ∃ s, getField "_source" r = some (.str s)) :
    ∃ subs, transformData nowIso recs = .ok subs ∧
      subs.length = recs.length ∧
      (∀ k (hk : k < subs.length), (subs.get ⟨k, hk⟩).id = toString (k + 1)) ∧
      subs.map (fun sub => sub.id) = (List.range recs.length).map (fun k => toString (k + 1)) ∧
      (subs.map fun sub => sub.id).Nodup := by
  obtain ⟨subs, hsubs, hids⟩ := transformFrom_ok nowIso recs 0 h
  have hids' : subs.map (fun sub => sub.id) =
      (List.range recs.length).map (fun k => toString (k + 1)) := by
    rw [hids]
    apply List.map_congr_left
    intro k _
    simp
  have hlen : subs.length = recs.length := by
    have := congrArg List.length hids'
    simpa using this
  refine ⟨subs, hsubs, hlen, ?_, hids', ?_⟩
  · intro k hk
    have h1 : (subs.map (fun sub => sub.id))[k]? = some (subs.get ⟨k, hk⟩).id := by
      simp [List.getElem?_eq_getElem hk]
    rw [hids'] at h1
    have hk' : k < recs.length := by omega
    simp [List.getElem?_eq_getElem, hk'] at h1
    exact h1.symm
  · rw [hids']
    apply List.Nodup.map _ (List.nodup_range _)
    intro a b hab
    have := toString_nat_injective (a + 1) (b + 1) hab
    omega

/-- C10, witness: two tagged records. -/
theorem transformData_ids_witness :
    ∃ subs, transformData "2024-01-01T00:00:00.000Z"
        [[("email", .str "a@x.org"), ("_source", .str "Career Subscription - Professional Edge Global")],
         [("name", .str "Bo"), ("_source", .str "Claim Form Submission - Everest Claims and Advisory")]]
        = .ok subs ∧
      subs.length = 2 ∧
      (∀ k (hk : k < subs.length), (subs.get ⟨k, hk⟩).id = toString (k + 1)) ∧
      subs.map (fun sub => sub.id) = (List.range 2).map (fun k => toString (k + 1)) ∧
      (subs.map fun sub => sub.id).Nodup :=
  transformData_ids "2024-01-01T00:00:00.000Z"
    [[("email", .str "a@x.org"), ("_source", .str "Career Subscription - Professional Edge Global")],
     [("name", .str "Bo"), ("_source", .str "Claim Form Submission - Everest Claims and Advisory")]]
    (by
      intro r hr
      simp only [List.mem_cons, List.mem_singleton, List.not_mem_nil, or_false] at hr
      rcases hr with rfl | rfl
      · exact ⟨_, rfl⟩
      · exact ⟨_, rfl⟩)

/-! ## More lemmas on the aggregator -/

/-- Every record that `tagItems` returns has the form given by `tagged`, for the
registry entry at that position. -/
theorem tagItems_ok (index : Nat) (data : JVal) (out : List RawRecord)
    (h : tagItems index data = .ok out) :
    ∃ items, data = .arr items ∧
      ((items = [] ∧ out = []) ∨
        ∃ source, dataSources[index]? = some source ∧
          out = items.map (tagged source.name)) := by
  cases data with
  | arr items =>
    refine ⟨items, rfl, ?_⟩
    cases hsrc : dataSources[index]? with
    | some source =>
      right
      refine ⟨source, rfl, ?_⟩
      simp only [tagItems, hsrc] at h
      have h2 := mapM_ok (fun item => setField "_source" (.str source.name) (spread item)) items
      rw [h2] at h
      simp only [Except.ok.injEq] at h
      rw [← h]
      rfl
    | none =>
      left
      cases items with
      | nil =>
        refine ⟨rfl, ?_⟩
        have h0 : tagItems index (.arr []) = .ok [] := rfl
        rw [h0] at h
        simp only [Except.ok.injEq] at h
        exact h.symm
      | cons item rest =>
        simp only [tagItems, hsrc, List.mapM_cons] at h
        exact absurd h (by simp [bind, Except.bind])
  | null => simp [tagItems] at h
  | bool b => simp [tagItems] at h
  | num n => simp [tagItems] at h
  | str s => simp [tagItems] at h
  | obj fields => simp [tagItems] at h

theorem getField_tagged (name : String) (item : JVal) :
    getField "_source" (tagged name item) = some (.str name) :=
  getField_setField _ _ _

/-- Every record in the output of `flatMapTagged` has a string `_source`. -/
theorem flatMapTagged_source (bs : List JVal) :
    ∀ index out, flatMapTagged index bs = .ok out →
      ∀ r ∈ out, ∃ s, getField "_source" r = some (.str s) := by
  induction bs with
  | nil =>
    intro index out h r hr
    simp only [flatMapTagged, Except.ok.injEq] at h
    rw [← h] at hr
    simp at hr
  | cons b rest ih =>
    intro index out h r hr
    simp only [flatMapTagged] at h
    split at h
    · exact absurd h (by simp)
    · rename_i first hfirst
      split at h
      · exact absurd h (by simp)
      · rename_i more hmore
        simp only [Except.ok.injEq] at h
        rw [← h] at hr
        rcases List.mem_append.mp hr with h1 | h2
        · obtain ⟨items, _, hcase⟩ := tagItems_ok index b first hfirst
          rcases hcase with ⟨_, hnil⟩ | ⟨source, _, hout⟩
          · rw [hnil] at h1
            simp at h1
          · rw [hout] at h1
            obtain ⟨item, _, rfl⟩ := List.mem_map.mp h1
            exact ⟨_, getField_tagged _ _⟩
        · exact ih (index + 1) more hmore r h2

theorem getField_setField_ne (key k : String) (value : JVal) (o : JObject) (h : key ≠ k) :
    getField key (setField k value o) = getField key o := by
  induction o with
  | nil => simp [setField, getField, Ne.symm h]
  | cons p rest ih =>
    obtain ⟨k', v'⟩ := p
    by_cases hk : k' = k
    · subst hk
      simp [setField, getField, Ne.symm h]
    · by_cases hk' : k' = key
      · subst hk'
        simp [setField, getField, hk]
      · simp [setField, getField, hk, hk', ih]

/-- The tagging of the arrays of a run of registry entries starting at position
`index`: the concatenation of the tagged items, source by source. -/
theorem flatMapTagged_concat (f : Source → List JVal) :
    ∀ (srcs : List Source) (index : Nat), dataSources.drop index = srcs →
      flatMapTagged index (srcs.map fun src => JVal.arr (f src)) =
        .ok (srcs.flatMap fun src => (f src).map (tagged src.name)) := by
  intro srcs
  induction srcs with
  | nil =>
    intro index _
    rfl
  | cons src rest ih =>
    intro index hdrop
    have hlt : index < dataSources.length := by
      by_contra hge
      rw [List.drop_eq_nil_of_le (by omega)] at hdrop
      exact absurd hdrop (by simp)
    rw [List.drop_eq_getElem_cons hlt] at hdrop
    simp only [List.cons.injEq] at hdrop
    have hidx : dataSources[index]? = some src := by
      rw [List.getElem?_eq_getElem hlt, hdrop.1]
    have htag : tagItems index (.arr (f src)) = .ok ((f src).map (tagged src.name)) := by
      simp only [tagItems, hidx]
      exact mapM_ok _ (f src)
    simp only [List.map_cons, flatMapTagged, htag, ih (index + 1) hdrop.2, List.flatMap_cons]

/-- A fulfilled `Promise.all` means that every promise was fulfilled. -/
theorem promiseAll_ok (ps : List Outcome) (bs : List JVal) (h : promiseAll ps = .ok bs) :
    ps = bs.map Outcome.resolved := by
  unfold promiseAll at h
  split at h
  · exact absurd h (by simp)
  · rename_i hnone
    simp only [Except.ok.injEq] at h
    subst h
    induction ps with
    | nil => rfl
    | cons p rest ih =>
      cases p with
      | resolved b =>
        simp only [firstRejected] at hnone
        simp only [bodies, List.map_cons, List.cons.injEq, true_and]
        exact ih hnone
      | rejected t m =>
        simp only [firstRejected] at hnone
        split at hnone
        · split at hnone <;> simp at hnone
        · simp at hnone

/-- A successful tagging means that every body was an array. -/
theorem flatMapTagged_ok_arrays (bs : List JVal) :
    ∀ index out, flatMapTagged index bs = .ok out → ∀ b ∈ bs, ∃ items, b = .arr items := by
  induction bs with
  | nil =>
    intro index out _ b hb
    simp at hb
  | cons b0 rest ih =>
    intro index out h b hb
    simp only [flatMapTagged] at h
    split at h
    · exact absurd h (by simp)
    · rename_i first hfirst
      split at h
      · exact absurd h (by simp)
      · rename_i more hmore
        rcases List.mem_cons.mp hb with h1 | h2
        · obtain ⟨items, hitems, _⟩ := tagItems_ok index b0 first hfirst
          exact ⟨items, by rw [h1, hitems]⟩
        · exact ih (index + 1) more hmore b h2

/-- The aggregator succeeds only when every registered source has answered with an
array. -/
theorem fetchAllData_ok_resolved (net : Net) (out : List RawRecord)
    (h : fetchAllData net = .ok out) :
    ∀ s ∈ dataSources, ∃ items, net s.url = .resolved (.arr items) := by
  unfold fetchAllData at h
  split at h
  · exact absurd h (by simp)
  · rename_i results hres
    have hps := promiseAll_ok _ _ hres
    intro s hs
    have hmem : net s.url ∈ results.map Outcome.resolved := by
      rw [← hps]
      exact List.mem_map.mpr ⟨s, hs, rfl⟩
    obtain ⟨b, hb, hbe⟩ := List.mem_map.mp hmem
    obtain ⟨items, hitems⟩ := flatMapTagged_ok_arrays results 0 out h b hb
    exact ⟨items, by rw [← hbe, hitems]⟩

/-- When every registered source answers with an array, the output of the
aggregator is the concatenation, in registry order, of the tagged items. -/
theorem fetchAllData_eq_concat (net : Net)
    (h : ∀ s ∈ dataSources, ∃ items, net s.url = .resolved (.arr items)) :
    fetchAllData net =
      .ok (dataSources.flatMap fun src => (itemsOf (net src.url)).map (tagged src.name)) := by
  have hmap : (dataSources.map fun s => net s.url) =
      (dataSources.map fun s => JVal.arr (itemsOf (net s.url))).map Outcome.resolved := by
    rw [List.map_map]
    apply List.map_congr_left
    intro s hs
    obtain ⟨items, hi⟩ := h s hs
    simp [hi, itemsOf]
  simp only [fetchAllData, hmap, promiseAll_resolved]
  exact flatMapTagged_concat (fun src => itemsOf (net src.url)) dataSources 0 rfl

/-! ## Lemmas on the fields of a submission -/

theorem containsSub_iff (needle hay : List Char) :
    containsSub needle hay = true ↔ ∃ before after, hay = before ++ needle ++ after := by
  induction hay with
  | nil =>
    simp only [containsSub, List.isEmpty_iff]
    constructor
    · intro h
      exact ⟨[], [], by simp [h]⟩
    · rintro ⟨before, after, h⟩
      have h' := congrArg List.length h
      simp only [List.length_nil, List.length_append] at h'
      exact List.eq_nil_of_length_eq_zero (by omega)
  | cons c cs ih =>
    simp only [containsSub, Bool.or_eq_true, ih, List.isPrefixOf_iff_prefix ]
    constructor
    · rintro (⟨t, ht⟩ | ⟨before, after, h⟩)
      · exact ⟨[], t, by simp [ht]⟩
      · exact ⟨c :: before, after, by simp [h]⟩
    · rintro ⟨before, after, h⟩
      cases before with
      | nil => exact Or.inl ⟨after, by simpa using h.symm⟩
      | cons b before' =>
        simp only [List.cons_append, List.cons.injEq] at h
        exact Or.inr ⟨before', after, h.2⟩

theorem isSubstring_iff (needle s : String) :
    IsSubstring needle s ↔ containsSub needle.toList s.toList = true :=
  (containsSub_iff needle.toList s.toList).symm

/-- On a record with a string `_source` the callback returns the object literal
with the type decided by the two substring tests. -/
theorem transformItem_str (nowIso : String) (item : RawRecord) (index : Nat) (s : String)
    (h : getField "_source" item = some (.str s)) :
    transformItem nowIso item index =
      .ok (transformItem.build nowIso item index (.str s)
        (if containsSub "Subscription".toList s.toList
            || containsSub "Consultation".toList s.toList then "subscription"
         else "contact")) := by
  simp only [transformItem, h, includes]
  cases containsSub "Subscription".toList s.toList
  · cases containsSub "Consultation".toList s.toList
    · rfl
    · rfl
  · rfl

theorem jsOr_of_truthy (o : Option JVal) (d v : JVal) (h : o = some v) (ht : truthy v = true) :
    jsOr o d = v := by
  simp [jsOr, h, ht]

theorem jsOr_of_falsy (o : Option JVal) (d : JVal) (h : ∀ v, o = some v → truthy v = false) :
    jsOr o d = d := by
  cases o with
  | none => rfl
  | some v => simp [jsOr, h v rfl]

/-- A string is truthy exactly when it is not empty. -/
theorem truthy_str (t : String) : truthy (.str t) = true ↔ t ≠ "" := by
  simp [truthy]

/-- Two runs of the callback that differ in the clock reading only: both fail with
the same message, or both build the object literal from the same source and type. -/
theorem transformItem_clock (iso1 iso2 : String) (item : RawRecord) (index : Nat) :
    (∃ e, transformItem iso1 item index = .error e ∧ transformItem iso2 item index = .error e) ∨
    (∃ source type,
      transformItem iso1 item index = .ok (transformItem.build iso1 item index source type) ∧
      transformItem iso2 item index = .ok (transformItem.build iso2 item index source type)) := by
  unfold transformItem
  cases getField "_source" item with
  | none => exact Or.inl ⟨_, rfl, rfl⟩
  | some source =>
    simp only
    cases includes source "Subscription" with
    | error e => exact Or.inl ⟨_, rfl, rfl⟩
    | ok b =>
      cases b with
      | true => exact Or.inr ⟨_, _, rfl, rfl⟩
      | false =>
        simp only
        cases includes source "Consultation" with
        | error e => exact Or.inl ⟨_, rfl, rfl⟩
        | ok b' =>
          cases b' with
          | true => exact Or.inr ⟨_, _, rfl, rfl⟩
          | false => exact Or.inr ⟨_, _, rfl, rfl⟩

theorem build_sameButSubmittedAt (iso1 iso2 : String) (item : RawRecord) (index : Nat)
    (source : JVal) (type : String) :
    SameButSubmittedAt (transformItem.build iso1 item index source type)
      (transformItem.build iso2 item index source type) := rfl

theorem build_eq_of_timestamp (iso1 iso2 : String) (item : RawRecord) (index : Nat)
    (source : JVal) (type : String) (v : JVal) (h : HasTruthy "timestamp" item v) :
    transformItem.build iso1 item index source type =
      transformItem.build iso2 item index source type := by
  simp only [transformItem.build, jsOr_of_truthy _ _ v h.1 h.2]

theorem transformFrom_clock (iso1 iso2 : String) (recs : List RawRecord) :
    ∀ index,
      (∃ e, transformFrom iso1 index recs = .error e ∧
        transformFrom iso2 index recs = .error e) ∨
      (∃ a b, transformFrom iso1 index recs = .ok a ∧ transformFrom iso2 index recs = .ok b ∧
        List.Forall₂ SameButSubmittedAt a b ∧
        ((∀ r ∈ recs, ∃ v, HasTruthy "timestamp" r v) → a = b)) := by
  induction recs with
  | nil =>
    intro index
    exact Or.inr ⟨[], [], rfl, rfl, List.Forall₂.nil, fun _ => rfl⟩
  | cons item rest ih =>
    intro index
    rcases transformItem_clock iso1 iso2 item index with ⟨e, h1, h2⟩ | ⟨source, type, h1, h2⟩
    · exact Or.inl ⟨e, by simp only [transformFrom, h1], by simp only [transformFrom, h2]⟩
    · rcases ih (index + 1) with ⟨e, r1, r2⟩ | ⟨a, b, r1, r2, hab, heq⟩
      · exact Or.inl ⟨e, by simp only [transformFrom, h1, r1],
          by simp only [transformFrom, h2, r2]⟩
      · refine Or.inr ⟨_ :: a, _ :: b, by simp only [transformFrom, h1, r1],
          by simp only [transformFrom, h2, r2],
          List.Forall₂.cons (build_sameButSubmittedAt iso1 iso2 item index source type) hab, ?_⟩
        intro hall
        obtain ⟨v, hv⟩ := hall item (List.mem_cons_self _ _)
        rw [build_eq_of_timestamp iso1 iso2 item index source type v hv,
          heq (fun r hr => hall r (List.mem_cons_of_mem _ hr))]

/-! ## The fields set by the normalizer (C11, C12, C13, C14) -/

/-- C11: on a record whose `_source` is the string `s`, the submission has
`sourceSite` equal to `s`, its type is 'subscription' exactly when `s` contains
"Subscription" or "Consultation" as a case-sensitive substring, and 'contact'
otherwise. -/
theorem transformItem_type (nowIso : String) (item : RawRecord) (index : Nat) (s : String)
    (h : getField "_source" item = some (.str s)) :
    ∃ sub, transformItem nowIso item index = .ok sub ∧
      sub.sourceSite = .str s ∧
      (sub.type = "subscription" ↔
        (IsSubstring "Subscription" s ∨ IsSubstring "Consultation" s)) ∧
      (¬ (IsSubstring "Subscription" s ∨ IsSubstring "Consultation" s) →
        sub.type = "contact") := by
  refine ⟨_, transformItem_str nowIso item index s h, rfl, ?_, ?_⟩
  · simp only [transformItem.build, isSubstring_iff]
    by_cases hc : (containsSub "Subscription".toList s.toList
        || containsSub "Consultation".toList s.toList) = true
    · simp only [hc, if_true, true_iff]
      simpa using hc
    · have hc' : ¬ (containsSub "Subscription".toList s.toList = true
          ∨ containsSub "Consultation".toList s.toList = true) := by
        simpa using hc
      simp only [hc, hc', iff_false]
      decide
  · intro hn
    simp only [isSubstring_iff] at hn
    have hc : ¬ (containsSub "Subscription".toList s.toList
        || containsSub "Consultation".toList s.toList) = true := by
      simpa using hn
    simp only [transformItem.build, hc, Bool.false_eq_true, if_false]

/-- C11, witness: the two registry names of the specification, and a name in lower
case. -/
theorem transformItem_type_witness :
    (∃ sub, transformItem "2024-01-01T00:00:00.000Z"
        [("_source", .str "Email Subscription List - Professional Edge Global")] 0 = .ok sub ∧
      sub.type = "subscription") ∧
    (∃ sub, transformItem "2024-01-01T00:00:00.000Z"
        [("_source", .str "Contact Form Submission - S. Suresh & Associates")] 0 = .ok sub ∧
      sub.type = "contact") ∧
    (∃ sub, transformItem "2024-01-01T00:00:00.000Z"
        [("_source", .str "email subscription list")] 0 = .ok sub ∧
      sub.type = "contact") := by
  refine ⟨?_, ?_, ?_⟩
  · obtain ⟨sub, hsub, _, htype, _⟩ := transformItem_type "2024-01-01T00:00:00.000Z"
      [("_source", .str "Email Subscription List - Professional Edge Global")] 0
      "Email Subscription List - Professional Edge Global" rfl
    exact ⟨sub, hsub, htype.mpr (Or.inl ((isSubstring_iff _ _).mpr (by decide)))⟩
  · obtain ⟨sub, hsub, _, _, htype⟩ := transformItem_type "2024-01-01T00:00:00.000Z"
      [("_source", .str "Contact Form Submission - S. Suresh & Associates")] 0
      "Contact Form Submission - S. Suresh & Associates" rfl
    refine ⟨sub, hsub, htype ?_⟩
    rw [isSubstring_iff, isSubstring_iff]
    decide
  · obtain ⟨sub, hsub, _, _, htype⟩ := transformItem_type "2024-01-01T00:00:00.000Z"
      [("_source", .str "email subscription list")] 0 "email subscription list" rfl
    refine ⟨sub, hsub, htype ?_⟩
    rw [isSubstring_iff, isSubstring_iff]
    decide

/-- C12: on a record whose `_source` is the string `s` the normalizer does not
fail; `sourceUrl` is the url of the registered source named `s`, there being at
most one since the names of the registry are pairwise distinct, and the empty
string when no registered source is named `s`. -/
theorem transformItem_sourceUrl (nowIso : String) (item : RawRecord) (index : Nat)
    (s : String) (h : getField "_source" item = some (.str s)) :
    (dataSources.map fun src => src.name).Nodup ∧
    ∃ sub, transformItem nowIso item index = .ok sub ∧
      (∀ src ∈ dataSources, src.name = s → sub.sourceUrl = src.url) ∧
      ((∀ src ∈ dataSources, src.name ≠ s) → sub.sourceUrl = "") := by
  refine ⟨by decide, _, transformItem_str nowIso item index s h, ?_, ?_⟩
  · intro src hsrc hname
    subst hname
    simp only [dataSources, List.mem_cons, List.mem_singleton, List.not_mem_nil,
      or_false] at hsrc
    rcases hsrc with rfl | rfl | rfl | rfl | rfl | rfl <;> rfl
  · intro hnone
    have hfind : (dataSources.find? fun src => nameIs src.name (.str s)) = none := by
      rw [List.find?_eq_none]
      intro src hsrc
      simpa [nameIs] using hnone src hsrc
    simp only [transformItem.build, sourceUrlOf, hfind]

/-- C12, witness: a registered name and an unknown one. -/
theorem transformItem_sourceUrl_witness :
    (∃ sub, transformItem "2024-01-01T00:00:00.000Z" fullRow 0 = .ok sub ∧
      sub.sourceUrl = "https://script.google.com/macros/s/AKfycbwdN3RsbBL9870hsny1l0IRzqjgi6H-565LXpbI8yEwM5Od1tRlIcohjMzf78WxC-og/exec") ∧
    (∃ sub, transformItem "2024-01-01T00:00:00.000Z" [("_source", .str "Unknown site")] 0
        = .ok sub ∧ sub.sourceUrl = "") := by
  constructor
  · obtain ⟨_, sub, hsub, hurl, _⟩ := transformItem_sourceUrl "2024-01-01T00:00:00.000Z"
      fullRow 0 "Contact Form Submission - S. Suresh & Associates" rfl
    exact ⟨sub, hsub, hurl
      { name := "Contact Form Submission - S. Suresh & Associates",
        url := "https://script.google.com/macros/s/AKfycbwdN3RsbBL9870hsny1l0IRzqjgi6H-565LXpbI8yEwM5Od1tRlIcohjMzf78WxC-og/exec",
        fields := ["name", "email", "subject", "message"] }
      (by simp [dataSources]) rfl⟩
  · obtain ⟨_, sub, hsub, _, hurl⟩ := transformItem_sourceUrl "2024-01-01T00:00:00.000Z"
      [("_source", .str "Unknown site")] 0 "Unknown site" rfl
    refine ⟨sub, hsub, hurl ?_⟩
    intro src hsrc
    simp only [dataSources, List.mem_cons, List.mem_singleton, List.not_mem_nil,
      or_false] at hsrc
    rcases hsrc with rfl | rfl | rfl | rfl | rfl | rfl <;> decide

/-- C13, counterexample: the record has a `message` property holding the number 0,
a value that is present and is not an empty text, and the submission's message is
the fallback text, not that value. -/
theorem transformItem_zero_message_counterexample :
    getField "message" sheetRow = some (.num 0) ∧
    JVal.num 0 ≠ .str "" ∧
    ∃ sub, transformItem "2024-01-01T00:00:00.000Z" sheetRow 0 = .ok sub ∧
      sub.message = .str "No message provided" ∧ sub.message ≠ .num 0 :=
  ⟨rfl, by simp, _, rfl, rfl, by simp [transformItem.build, jsOr, sheetRow, getField, truthy]⟩

/-- C13, amended: on a record with a string `_source`, each of name, email and
message is the record's property when that is present with a truthy value (any
value but the empty string, `0`, `false` and `null`) and the fixed fallback text
otherwise; subject is the record's subject when truthy, else the record's company
when truthy, else 'No subject'. -/
theorem transformItem_fallbacks (nowIso : String) (item : RawRecord) (index : Nat)
    (s : String) (h : getField "_source" item = some (.str s)) :
    ∃ sub, transformItem nowIso item index = .ok sub ∧
      ((∀ v, HasTruthy "name" item v → sub.name = v) ∧
        (LacksTruthy "name" item → sub.name = .str "Not provided")) ∧
      ((∀ v, HasTruthy "email" item v → sub.email = v) ∧
        (LacksTruthy "email" item → sub.email = .str "No email")) ∧
      ((∀ v, HasTruthy "message" item v → sub.message = v) ∧
        (LacksTruthy "message" item → sub.message = .str "No message provided")) ∧
      ((∀ v, HasTruthy "subject" item v → sub.subject = v) ∧
        (LacksTruthy "subject" item → ∀ v, HasTruthy "company" item v → sub.subject = v) ∧
        (LacksTruthy "subject" item → LacksTruthy "company" item →
          sub.subject = .str "No subject")) := by
  refine ⟨_, transformItem_str nowIso item index s h, ⟨?_, ?_⟩, ⟨?_, ?_⟩, ⟨?_, ?_⟩, ?_, ?_, ?_⟩
  · exact fun v hv => jsOr_of_truthy _ _ v hv.1 hv.2
  · exact fun hl => jsOr_of_falsy _ _ hl
  · exact fun v hv => jsOr_of_truthy _ _ v hv.1 hv.2
  · exact fun hl => jsOr_of_falsy _ _ hl
  · exact fun v hv => jsOr_of_truthy _ _ v hv.1 hv.2
  · exact fun hl => jsOr_of_falsy _ _ hl
  · exact fun v hv => jsOr_of_truthy _ _ v hv.1 hv.2
  · intro hl v hv
    simp only [transformItem.build]
    rw [jsOr_of_falsy _ _ hl, jsOr_of_truthy _ _ v hv.1 hv.2]
  · intro hl hc
    simp only [transformItem.build]
    rw [jsOr_of_falsy _ _ hl, jsOr_of_falsy _ _ hc]

/-- C13, witness: a record without name and subject, with an email and a company. -/
theorem transformItem_fallbacks_witness :
    ∃ sub, transformItem "2024-01-01T00:00:00.000Z" sheetRow 0 = .ok sub ∧
      sub.name = .str "Not provided" ∧ sub.email = .str "ann@example.org" ∧
      sub.subject = .str "Acme" := by
  obtain ⟨sub, hsub, hname, hemail, _, hsubject⟩ :=
    transformItem_fallbacks "2024-01-01T00:00:00.000Z" sheetRow 0
      "Contact Form Submission - Professional Edge Global" rfl
  refine ⟨sub, hsub, hname.2 ?_, hemail.1 _ ⟨rfl, rfl⟩, hsubject.2.1 ?_ _ ⟨rfl, rfl⟩⟩
  · intro v hv
    exact absurd hv (by simp [sheetRow, getField])
  · intro v hv
    exact absurd hv (by simp [sheetRow, getField])

/-- C14, counterexample: the record has a `timestamp` property, holding the empty
string, and `submittedAt` is the current time, not that property. -/
theorem transformItem_empty_timestamp_counterexample :
    getField "timestamp" sheetRow = some (.str "") ∧
    ∃ sub, transformItem "2024-01-01T00:00:00.000Z" sheetRow 0 = .ok sub ∧
      sub.submittedAt = .str "2024-01-01T00:00:00.000Z" ∧ sub.submittedAt ≠ .str "" :=
  ⟨rfl, _, rfl, rfl, by simp [transformItem.build, jsOr, sheetRow, getField, truthy]⟩

/-- C14, amended: on a record with a string `_source`, `submittedAt` is the
record's `timestamp` when that property is present with a truthy value, and the
current time as an ISO string when it is absent or falsy (the empty string, `0`,
`false` or `null`). -/
theorem transformItem_submittedAt (nowIso : String) (item : RawRecord) (index : Nat)
    (s : String) (h : getField "_source" item = some (.str s)) :
    ∃ sub, transformItem nowIso item index = .ok sub ∧
      (∀ v, HasTruthy "timestamp" item v → sub.submittedAt = v) ∧
      (LacksTruthy "timestamp" item → sub.submittedAt = .str nowIso) := by
  refine ⟨_, transformItem_str nowIso item index s h, ?_, ?_⟩
  · exact fun v hv => jsOr_of_truthy _ _ v hv.1 hv.2
  · exact fun hl => jsOr_of_falsy _ _ hl

/-- C14, witness: a record with a timestamp and a record without one. -/
theorem transformItem_submittedAt_witness :
    (∃ sub, transformItem "2024-01-01T00:00:00.000Z" fullRow 0 = .ok sub ∧
      sub.submittedAt = .str "2023-05-05T10:00:00.000Z") ∧
    (∃ sub, transformItem "2024-01-01T00:00:00.000Z" [("_source", .str "Unknown site")] 0
        = .ok sub ∧ sub.submittedAt = .str "2024-01-01T00:00:00.000Z") := by
  constructor
  · obtain ⟨sub, hsub, htime, _⟩ := transformItem_submittedAt "2024-01-01T00:00:00.000Z"
      fullRow 0 "Contact Form Submission - S. Suresh & Associates" rfl
    exact ⟨sub, hsub, htime _ ⟨rfl, rfl⟩⟩
  · obtain ⟨sub, hsub, _, htime⟩ := transformItem_submittedAt "2024-01-01T00:00:00.000Z"
      [("_source", .str "Unknown site")] 0 "Unknown site" rfl
    refine ⟨sub, hsub, htime ?_⟩
    intro v hv
    exact absurd hv (by simp [getField])

/-- The object literals that two runs build from one record. -/
theorem build_runsAgree (iso1 iso2 : String) (item : RawRecord) (index : Nat)
    (source : JVal) (type : String) :
    RunsAgree iso1 iso2 item (transformItem.build iso1 item index source type)
      (transformItem.build iso2 item index source type) := by
  refine ⟨rfl, ?_, ?_⟩
  · intro v hv
    exact ⟨jsOr_of_truthy _ _ v hv.1 hv.2, jsOr_of_truthy _ _ v hv.1 hv.2⟩
  · intro hl
    have h1 : (transformItem.build iso1 item index source type).submittedAt = .str iso1 :=
      jsOr_of_falsy _ _ hl
    have h2 : (transformItem.build iso2 item index source type).submittedAt = .str iso2 :=
      jsOr_of_falsy _ _ hl
    refine ⟨h1, h2, ?_⟩
    intro hne heq
    rw [h1, h2] at heq
    exact hne (JVal.str.inj heq)

/-- Two successful runs of the map, record by record. -/
theorem transformFrom_runs (iso1 iso2 : String) (recs : List RawRecord) :
    ∀ index a b, transformFrom iso1 index recs = .ok a →
      transformFrom iso2 index recs = .ok b →
      a.length = recs.length ∧ b.length = recs.length ∧
      ∀ (k : Nat) (r : RawRecord), recs[k]? = some r →
        ∃ x y, a[k]? = some x ∧ b[k]? = some y ∧ RunsAgree iso1 iso2 r x y := by
  induction recs with
  | nil =>
    intro index a b ha hb
    simp only [transformFrom, Except.ok.injEq] at ha hb
    subst ha
    subst hb
    refine ⟨rfl, rfl, ?_⟩
    intro k r hr
    simp at hr
  | cons item rest ih =>
    intro index a b ha hb
    rcases transformItem_clock iso1 iso2 item index with ⟨e, h1, h2⟩ | ⟨source, type, h1, h2⟩
    · simp only [transformFrom, h1] at ha
      exact absurd ha (by simp)
    · simp only [transformFrom, h1] at ha
      simp only [transformFrom, h2] at hb
      rcases hra : transformFrom iso1 (index + 1) rest with e | a'
      · rw [hra] at ha
        exact absurd ha (by simp)
      rcases hrb : transformFrom iso2 (index + 1) rest with e | b'
      · rw [hrb] at hb
        exact absurd hb (by simp)
      rw [hra] at ha
      rw [hrb] at hb
      simp only [Except.ok.injEq] at ha hb
      subst ha
      subst hb
      obtain ⟨hla, hlb, hrest⟩ := ih (index + 1) a' b' hra hrb
      refine ⟨by simp [hla], by simp [hlb], ?_⟩
      intro k r hr
      cases k with
      | zero =>
        simp only [List.getElem?_cons_zero, Option.some.injEq] at hr
        subst hr
        exact ⟨_, _, List.getElem?_cons_zero, List.getElem?_cons_zero,
          build_runsAgree iso1 iso2 _ index source type⟩
      | succ k =>
        simp only [List.getElem?_cons_succ] at hr
        obtain ⟨x, y, hx, hy, hxy⟩ := hrest k r hr
        exact ⟨x, y, by simpa using hx, by simpa using hy, hxy⟩

/-! ## Totality and determinism of the normalizer (C15, C16) -/

/-- C15: on every sequence of records that carry a string `_source`,
`transformData` returns a sequence of submissions of the same length without
raising; on the empty sequence it returns the empty sequence; on the output of the
aggregator it never fails, so a failure of the `try` block of `fetchFreshData`
is a failure of the fetch stage with the same message, unless the fetch and the
normalization both succeeded and the cache write raised. -/
theorem transformData_total (nowIso : String) :
    (∀ recs : List RawRecord, (∀ r ∈ recs, ∃ s, getField "_source" r = some (.str s)) →
      ∃ subs, transformData nowIso recs = .ok subs ∧ subs.length = recs.length) ∧
    transformData nowIso [] = .ok [] ∧
    (∀ net raw, fetchAllData net = .ok raw → ∃ D, transformData nowIso raw = .ok D) ∧
    (∀ net clock st m, fetchFreshData.tryBlock net clock st = .error m →
      fetchAllData net = .error m ∨
      (∃ raw D, fetchAllData net = .ok raw ∧ transformData clock.toISOString raw = .ok D ∧
        st.writeFails = true)) := by
  have hagg : ∀ (iso : String) (net : Net) (raw : List RawRecord),
      fetchAllData net = .ok raw → ∃ D, transformData iso raw = .ok D := by
    intro iso net raw hraw
    have hsrc : ∀ r ∈ raw, ∃ s, getField "_source" r = some (.str s) := by
      unfold fetchAllData at hraw
      split at hraw
      · exact absurd hraw (by simp)
      · rename_i results _
        exact flatMapTagged_source results 0 raw hraw
    obtain ⟨D, hD, _⟩ := transformFrom_ok iso raw 0 hsrc
    exact ⟨D, hD⟩
  refine ⟨?_, rfl, hagg nowIso, ?_⟩
  · intro recs hrecs
    obtain ⟨subs, hsubs, hids⟩ := transformFrom_ok nowIso recs 0 hrecs
    refine ⟨subs, hsubs, ?_⟩
    have := congrArg List.length hids
    simpa using this
  · intro net clock st m hfail
    unfold fetchFreshData.tryBlock at hfail
    split at hfail
    · rename_i e he
      simp only [Except.error.injEq] at hfail
      rw [← hfail]
      exact Or.inl he
    · rename_i raw hraw
      obtain ⟨D, hD⟩ := hagg clock.toISOString net raw hraw
      rw [hD] at hfail
      simp only [setItem] at hfail
      by_cases hw : st.writeFails = true
      · exact Or.inr ⟨raw, D, hraw, hD, hw⟩
      · simp [hw] at hfail

/-- C15, witness: two tagged records, and the output of the aggregator when each
source answers with one record. -/
theorem transformData_total_witness :
    (∃ subs, transformData "2024-01-01T00:00:00.000Z" [sheetRow, fullRow] = .ok subs ∧
      subs.length = [sheetRow, fullRow].length) ∧
    (∀ raw, fetchAllData online = .ok raw →
      ∃ D, transformData "2024-01-01T00:00:00.000Z" raw = .ok D) :=
  ⟨(transformData_total "2024-01-01T00:00:00.000Z").1 [sheetRow, fullRow]
      (by
        intro r hr
        simp only [List.mem_cons, List.mem_singleton, List.not_mem_nil, or_false] at hr
        rcases hr with rfl | rfl
        · exact ⟨_, rfl⟩
        · exact ⟨_, rfl⟩),
   (transformData_total "2024-01-01T00:00:00.000Z").2.2.1 online⟩

/-- C16, counterexample: one record without `timestamp`, normalized at two clock
readings one second apart; the two outputs differ. -/
theorem transformData_two_runs_counterexample :
    transformData "2024-01-01T00:00:00.000Z" [[("_source", .str "Unknown site")]] ≠
      transformData "2024-01-01T00:00:01.000Z" [[("_source", .str "Unknown site")]] := by
  intro h
  have h1 : (transformData "2024-01-01T00:00:00.000Z"
      [[("_source", .str "Unknown site")]]).toOption.map (fun l => l.map fun sub => sub.submittedAt)
      = some [.str "2024-01-01T00:00:00.000Z"] := rfl
  have h2 : (transformData "2024-01-01T00:00:01.000Z"
      [[("_source", .str "Unknown site")]]).toOption.map (fun l => l.map fun sub => sub.submittedAt)
      = some [.str "2024-01-01T00:00:01.000Z"] := rfl
  rw [h, h2] at h1
  simp only [Option.some.injEq, List.cons.injEq, JVal.str.injEq, and_true] at h1
  exact absurd h1 (by decide)

/-- C16, amended: two runs of `transformData` on the same sequence, at clock
readings `iso1` and `iso2`, fail with the same message or both succeed; when they
succeed each output has one submission per record and, position by position, the
two submissions agree on every field other than `submittedAt`; for a record whose
`timestamp` is truthy both carry that timestamp as `submittedAt`, whatever the other
records of the sequence hold; for a record whose `timestamp` is absent or falsy
each carries the clock reading of its run, and the two differ when the readings
differ. The outputs are equal when every record has a truthy `timestamp`, and when
the two runs read the same clock value. -/
theorem transformData_runs (iso1 iso2 : String) (recs : List RawRecord) :
    ((∃ e, transformData iso1 recs = .error e ∧ transformData iso2 recs = .error e) ∨
      (∃ a b, transformData iso1 recs = .ok a ∧ transformData iso2 recs = .ok b ∧
        List.Forall₂ SameButSubmittedAt a b ∧
        a.length = recs.length ∧ b.length = recs.length ∧
        ∀ (k : Nat) (r : RawRecord), recs[k]? = some r →
          ∃ x y, a[k]? = some x ∧ b[k]? = some y ∧
            SameButSubmittedAt x y ∧
            (∀ v, HasTruthy "timestamp" r v → x.submittedAt = v ∧ y.submittedAt = v) ∧
            (LacksTruthy "timestamp" r →
              x.submittedAt = .str iso1 ∧ y.submittedAt = .str iso2 ∧
              (iso1 ≠ iso2 → x.submittedAt ≠ y.submittedAt)))) ∧
    ((∀ r ∈ recs, ∃ v, HasTruthy "timestamp" r v) →
      transformData iso1 recs = transformData iso2 recs) ∧
    (iso1 = iso2 → transformData iso1 recs = transformData iso2 recs) := by
  refine ⟨?_, ?_, fun h => by rw [h]⟩
  · rcases transformFrom_clock iso1 iso2 recs 0 with ⟨e, h1, h2⟩ | ⟨a, b, h1, h2, hab, _⟩
    · exact Or.inl ⟨e, h1, h2⟩
    · obtain ⟨hla, hlb, hk⟩ := transformFrom_runs iso1 iso2 recs 0 a b h1 h2
      exact Or.inr ⟨a, b, h1, h2, hab, hla, hlb, hk⟩
  · intro hall
    rcases transformFrom_clock iso1 iso2 recs 0 with ⟨e, h1, h2⟩ | ⟨a, b, h1, h2, _, heq⟩
    · simp only [transformData, h1, h2]
    · simp only [transformData, h1, h2, heq hall]

/-- C16, witness: a record with a timestamp followed by a record whose timestamp is
the empty string, normalized at two clock readings one second apart. Both runs
succeed; the first submissions carry the record's timestamp in both runs, the second
ones the clock reading of their run. -/
theorem transformData_runs_witness :
    (transformData "2024-01-01T00:00:00.000Z" [fullRow, sheetRow]).toOption.map
        (fun l => l.map fun sub => sub.submittedAt) =
      some [.str "2023-05-05T10:00:00.000Z", .str "2024-01-01T00:00:00.000Z"] ∧
    (transformData "2024-01-01T00:00:01.000Z" [fullRow, sheetRow]).toOption.map
        (fun l => l.map fun sub => sub.submittedAt) =
      some [.str "2023-05-05T10:00:00.000Z", .str "2024-01-01T00:00:01.000Z"] ∧
    ∃ a b, transformData "2024-01-01T00:00:00.000Z" [fullRow, sheetRow] = .ok a ∧
      transformData "2024-01-01T00:00:01.000Z" [fullRow, sheetRow] = .ok b ∧
      List.Forall₂ SameButSubmittedAt a b ∧ a.length = 2 ∧ b.length = 2 ∧
      (∃ x y, a[0]? = some x ∧ b[0]? = some y ∧
        x.submittedAt = .str "2023-05-05T10:00:00.000Z" ∧
        y.submittedAt = .str "2023-05-05T10:00:00.000Z") ∧
      (∃ x y, a[1]? = some x ∧ b[1]? = some y ∧
        x.submittedAt = .str "2024-01-01T00:00:00.000Z" ∧
        y.submittedAt = .str "2024-01-01T00:00:01.000Z" ∧
        x.submittedAt ≠ y.submittedAt) := by
  refine ⟨rfl, rfl, ?_⟩
  rcases (transformData_runs "2024-01-01T00:00:00.000Z" "2024-01-01T00:00:01.000Z"
    [fullRow, sheetRow]).1 with ⟨e, h1, _⟩ | ⟨a, b, h1, h2, hsame, hla, hlb, hk⟩
  · have hok : (transformData "2024-01-01T00:00:00.000Z"
        [fullRow, sheetRow]).toOption.isSome = true := rfl
    rw [h1] at hok
    exact absurd hok (by simp [Except.toOption])
  · refine ⟨a, b, h1, h2, hsame, hla, hlb, ?_, ?_⟩
    · obtain ⟨x, y, hx, hy, _, htruthy, _⟩ := hk 0 fullRow rfl
      exact ⟨x, y, hx, hy, htruthy (.str "2023-05-05T10:00:00.000Z") ⟨rfl, rfl⟩⟩
    · obtain ⟨x, y, hx, hy, _, _, hlacks⟩ := hk 1 sheetRow rfl
      have hl : LacksTruthy "timestamp" sheetRow := by
        intro v hv
        have hv' : v = .str "" := by
          have : getField "timestamp" sheetRow = some (.str "") := rfl
          rw [this] at hv
          exact (Option.some.inj hv).symm
        rw [hv']
        rfl
      obtain ⟨h1', h2', hne⟩ := hlacks hl
      exact ⟨x, y, hx, hy, h1', h2', hne (by decide)⟩

/-! ## The source fetcher of `components/fetchData.js` (C17) -/

/-- C17: for every source, `fetchFromSource` never throws, and it returns the
empty array on a network error, on a status outside 200..299, on a body that does
not parse as JSON and on a parsed body that is not an array. -/
theorem fetchFromSource_failure (source : Source) :
    (∀ outcome, ∃ rows, fetchFromSource source outcome = .ok rows) ∧
    (∀ m, fetchFromSource source (.networkError m) = .ok []) ∧
    (∀ status json, (status < 200 ∨ 299 < status) →
      fetchFromSource source (.response status json) = .ok []) ∧
    (∀ status m, fetchFromSource source (.response status (.error m)) = .ok []) ∧
    (∀ status v, (∀ rows, v ≠ .arr rows) →
      fetchFromSource source (.response status (.ok v)) = .ok []) := by
  refine ⟨?_, fun _ => rfl, ?_, ?_, ?_⟩
  · intro outcome
    unfold fetchFromSource
    cases fetchFromSource.tryBlock source outcome with
    | ok rows => exact ⟨rows, rfl⟩
    | error e => exact ⟨[], rfl⟩
  · intro status json hstatus
    have hok : statusOk status = false := by
      simp only [statusOk, Bool.and_eq_false_imp, decide_eq_true_eq, decide_eq_false_iff_not]
      omega
    simp only [fetchFromSource, fetchFromSource.tryBlock, hok, Bool.not_false, if_true]
  · intro status m
    have ht : ∃ e, fetchFromSource.tryBlock source (.response status (.error m)) = .error e := by
      simp only [fetchFromSource.tryBlock]
      split
      · exact ⟨_, rfl⟩
      · exact ⟨_, rfl⟩
    obtain ⟨e, he⟩ := ht
    simp only [fetchFromSource, he]
  · intro status v hv
    have ht : ∃ e, fetchFromSource.tryBlock source (.response status (.ok v)) = .error e := by
      simp only [fetchFromSource.tryBlock]
      split
      · exact ⟨_, rfl⟩
      · cases v with
        | arr rows => exact absurd rfl (hv rows)
        | null => exact ⟨_, rfl⟩
        | bool b => exact ⟨_, rfl⟩
        | num n => exact ⟨_, rfl⟩
        | str t => exact ⟨_, rfl⟩
        | obj fields => exact ⟨_, rfl⟩
    obtain ⟨e, he⟩ := ht
    simp only [fetchFromSource, he]

/-- C17, witness: a status 500 with a JSON body, and a status 200 whose body is an
object, for the first registered source. -/
theorem fetchFromSource_failure_witness :
    fetchFromSource
        { name := "Career Subscription - Professional Edge Global", url := "", fields := [] }
        (.response 500 (.ok (.arr [.obj [("email", .str "ann@example.org")]]))) = .ok [] ∧
    fetchFromSource
        { name := "Career Subscription - Professional Edge Global", url := "", fields := [] }
        (.response 200 (.ok (.obj [("error", .str "quota")]))) = .ok [] :=
  ⟨(fetchFromSource_failure _).2.2.1 500 _ (Or.inr (by decide)),
   (fetchFromSource_failure _).2.2.2.2 200 _ (fun rows hrows => by cases hrows)⟩

/-! ## The records of the aggregator (C18, C19) -/

/-- C18, counterexample: every source answers with one record; none of the six
records in the output of `fetchAllData` has a `_fields` property. -/
theorem fetchAllData_no_fields_counterexample :
    ∃ out, fetchAllData online = .ok out ∧
      out.map (getField "_fields") = [none, none, none, none, none, none] :=
  ⟨_, rfl, rfl⟩

/-- C18, amended: every record in the output of `fetchAllData` of `utils/api.js`
comes from an item returned by a registered source, has `_source` equal to the
name of that source, and has every other property exactly as the item returned by
the endpoint had it; in particular it has a `_fields` property only if the
endpoint returned one. The function `fetchFromSource` of `components/fetchData.js`
is the one that sets both `_source` and `_fields` on every row. -/
theorem fetchAllData_records (net : Net) (out : List RawRecord)
    (h : fetchAllData net = .ok out) :
    (∀ r ∈ out, ∃ src ∈ dataSources, ∃ item ∈ itemsOf (net src.url),
      r = tagged src.name item ∧
      getField "_source" r = some (.str src.name) ∧
      (∀ key, key ≠ "_source" → getField key r = getField key (spread item))) ∧
    (∀ (source : Source) (outcome : HttpOutcome) (rows : List RawRecord),
      fetchFromSource.tryBlock source outcome = .ok rows → ∀ r ∈ rows,
        getField "_source" r = some (.str source.name) ∧
        getField "_fields" r = some (.arr (source.fields.map JVal.str))) := by
  constructor
  · have hall := fetchAllData_ok_resolved net out h
    rw [fetchAllData_eq_concat net hall] at h
    simp only [Except.ok.injEq] at h
    intro r hr
    rw [← h] at hr
    obtain ⟨src, hsrc, hmem⟩ := List.mem_flatMap.mp hr
    obtain ⟨item, hitem, rfl⟩ := List.mem_map.mp hmem
    exact ⟨src, hsrc, item, hitem, rfl, getField_tagged _ _,
      fun key hkey => getField_setField_ne key "_source" _ _ hkey⟩
  · intro source outcome rows hrows r hr
    cases outcome with
    | networkError m => simp [fetchFromSource.tryBlock] at hrows
    | response status json =>
      simp only [fetchFromSource.tryBlock] at hrows
      split at hrows
      · exact absurd hrows (by simp)
      · split at hrows
        · exact absurd hrows (by simp)
        · simp only [Except.ok.injEq] at hrows
          rw [← hrows] at hr
          obtain ⟨row, _, rfl⟩ := List.mem_map.mp hr
          refine ⟨?_, getField_setField _ _ _⟩
          rw [getField_setField_ne "_source" "_fields" _ _ (by decide)]
          exact getField_setField _ _ _
        · exact absurd hrows (by simp)
        · exact absurd hrows (by simp)

/-- C18, witness: the records of the aggregator when every source answers with one
record. -/
theorem fetchAllData_records_witness :
    ∃ out, fetchAllData online = .ok out ∧
      ∀ r ∈ out, ∃ src ∈ dataSources, ∃ item ∈ itemsOf (online src.url),
        r = tagged src.name item ∧
        getField "_source" r = some (.str src.name) ∧
        (∀ key, key ≠ "_source" → getField key r = getField key (spread item)) :=
  ⟨_, rfl, (fetchAllData_records online _ rfl).1⟩

/-- C19: when every registered source answers with an array, the output of
`fetchAllData` is the concatenation, in registry order, of the arrays returned by
the sources, each item tagged with the name of its source and kept at its place;
its length is the sum of the lengths of the arrays, and the tagged items of each
source appear in it in the order in which the endpoint returned them. -/
theorem fetchAllData_order (net : Net)
    (h : ∀ s ∈ dataSources, ∃ items, net s.url = .resolved (.arr items)) :
    ∃ out, fetchAllData net = .ok out ∧
      out = (dataSources.flatMap fun src => (itemsOf (net src.url)).map (tagged src.name)) ∧
      out.length = (dataSources.map fun src => (itemsOf (net src.url)).length).sum ∧
      ∀ src ∈ dataSources,
        List.Sublist ((itemsOf (net src.url)).map (tagged src.name)) out := by
  refine ⟨_, fetchAllData_eq_concat net h, rfl, ?_, ?_⟩
  · simp only [List.flatMap, List.length_flatten, List.map_map]
    congr 1
    apply List.map_congr_left
    intro src _
    simp
  · intro src hsrc
    simp only [List.flatMap]
    exact List.sublist_flatten_of_mem (List.mem_map.mpr ⟨src, hsrc, rfl⟩)

/-- C19, witness: the first source answers with the records of Ann and Bob, the
fourth with those of Cy and Dee, the others with empty arrays. The output is the
four records, those of the first source before those of the fourth, Ann before Bob
and Cy before Dee, each once. -/
theorem fetchAllData_order_witness :
    fetchAllData twoBusy = .ok
      [ [("email", .str "ann@example.org"),
         ("_source", .str "Career Subscription - Professional Edge Global")],
        [("email", .str "bob@example.org"),
         ("_source", .str "Career Subscription - Professional Edge Global")],
        [("name", .str "Cy"), ("email", .str "cy@example.org"),
         ("_source", .str "Contact Form Submission - Professional Edge Global")],
        [("name", .str "Dee"), ("email", .str "dee@example.org"),
         ("_source", .str "Contact Form Submission - Professional Edge Global")] ] ∧
    ∃ out, fetchAllData twoBusy = .ok out ∧
      out = (dataSources.flatMap fun src =>
        (itemsOf (twoBusy src.url)).map (tagged src.name)) ∧
      out.length = (dataSources.map fun src => (itemsOf (twoBusy src.url)).length).sum ∧
      ∀ src ∈ dataSources,
        List.Sublist ((itemsOf (twoBusy src.url)).map (tagged src.name)) out :=
  ⟨rfl, fetchAllData_order twoBusy (fun s _ => by
    unfold twoBusy
    split_ifs <;> exact ⟨_, rfl⟩)⟩

/-! ## The cache read leaves the storage alone (C20) -/

/-- C20: `getCachedData` leaves the storage exactly as it was, whatever the slot
holds; on an expired entry it reports `null` and the entry is still stored. -/
theorem getCachedData_frame (st : Storage) (now : Int) :
    (getCachedData.run st now).2 = st ∧
    (getCachedData.run st now).1 = getCachedData st now ∧
    (∀ e, st.slot = some (.entry e) → 5 * 60000 ≤ now - e.timestamp →
      (getCachedData.run st now).1 = .ok none ∧
      (getCachedData.run st now).2.slot = some (.entry e)) := by
  have hrun : getCachedData.run st now = (getCachedData st now, st) := by
    unfold getCachedData.run getCachedData getItem
    rcases hs : st.slot with _ | slot
    · rfl
    · cases slot with
      | unparsable => rfl
      | noTimestamp => rfl
      | entry e =>
        simp only
        split <;> rfl
  refine ⟨by rw [hrun], by rw [hrun], ?_⟩
  intro e hs hage
  have hage' : ¬ now - e.timestamp < 300000 := by omega
  rw [hrun]
  refine ⟨?_, hs⟩
  simp only [getCachedData_entry st e now hs, hage', if_false]

/-- C20, witness: an entry written at 1000 and read at 400000. -/
theorem getCachedData_frame_witness :
    (getCachedData.run cachedStorage 400000).1 = .ok none ∧
    (getCachedData.run cachedStorage 400000).2.slot = some (.entry sampleEntry) :=
  (getCachedData_frame cachedStorage 400000).2.2 sampleEntry rfl (by decide)

/-! ## The session check (C23) -/

/-- C23: `isSessionValid` returns `true` exactly when a session is stored and
`now - session.timestamp < 30 * 60 * 1000`; with no stored session, and with a
session aged 1800000 ms or more, it returns `false`; `ProtectedRoute` renders its
outlet exactly when the check returns `true`. -/
theorem isSessionValid_spec (st : SessionStorage) (now : Int) :
    (isSessionValid st now = .ok true ↔
      ∃ s, st = some (.parsed (.session s)) ∧ now - s.timestamp < 30 * 60 * 1000) ∧
    (st = none → isSessionValid st now = .ok false) ∧
    (∀ s, st = some (.parsed (.session s)) → 30 * 60 * 1000 ≤ now - s.timestamp →
      isSessionValid st now = .ok false) ∧
    (ProtectedRoute st now = .ok .outlet ↔ isSessionValid st now = .ok true) := by
  refine ⟨?_, ?_, ?_, ?_⟩
  · rcases st with _ | slot
    · simp [isSessionValid, getSession]
    · cases slot with
      | unparsable => simp [isSessionValid, getSession]
      | parsed value =>
        cases value with
        | falsy => simp [isSessionValid, getSession]
        | noTimestamp => simp [isSessionValid, getSession]
        | session s0 =>
          simp only [isSessionValid, getSession, THIRTY_MINUTES, Except.ok.injEq,
            decide_eq_true_eq, Option.some.injEq, SessionSlot.parsed.injEq,
            ParsedSession.session.injEq]
          constructor
          · intro h
            exact ⟨s0, rfl, h⟩
          · rintro ⟨s, rfl, h⟩
            exact h
  · intro h
    subst h
    rfl
  · intro s hs hage
    subst hs
    have hage' : ¬ now - s.timestamp < 30 * 60 * 1000 := by omega
    simp only [isSessionValid, getSession, THIRTY_MINUTES, hage', decide_False]
  · unfold ProtectedRoute
    cases isSessionValid st now with
    | error e => simp
    | ok valid => cases valid <;> simp

/-- C23, witness: a session written at 1000, checked at 1800999 and at 1801000,
and an empty session storage. -/
theorem isSessionValid_spec_witness :
    isSessionValid loggedIn 1800999 = .ok true ∧
    isSessionValid loggedIn 1801000 = .ok false ∧
    isSessionValid none 1801000 = .ok false :=
  ⟨(isSessionValid_spec loggedIn 1800999).1.2 ⟨sampleSession, rfl, by decide⟩,
   (isSessionValid_spec loggedIn 1801000).2.2.1 sampleSession rfl (by decide),
   (isSessionValid_spec none 1801000).2.1 rfl⟩

/-! ## Failure of the refresh (C24, C25) -/

/-- C24: when the fetch of the sources fails, and more generally whenever the
`try` block fails, `fetchFreshData` leaves the storage exactly as it was: an entry
in the slot keeps its data and its timestamp, an empty slot stays empty. -/
theorem fetchFreshData_failure_frame (net : Net) (clock : Clock) (st : Storage) :
    ((∃ m, fetchAllData net = .error m) → (fetchFreshData net clock st).2 = st) ∧
    ((∃ m, fetchFreshData.tryBlock net clock st = .error m) →
      (fetchFreshData net clock st).2 = st) := by
  have key : (∃ m, fetchFreshData.tryBlock net clock st = .error m) →
      (fetchFreshData net clock st).2 = st := by
    rintro ⟨m, hm⟩
    rw [fetchFreshData_of_error net clock st m hm]
    rcases getCachedData st clock.getTime with e | c
    · rfl
    · cases c <;> rfl
  refine ⟨?_, key⟩
  rintro ⟨m, hm⟩
  apply key
  exact ⟨m, by simp only [fetchFreshData.tryBlock, hm]⟩

/-- C24, witness: every request rejected, with a cached entry and with an empty
slot. -/
theorem fetchFreshData_failure_frame_witness :
    (fetchFreshData offline (clockAt 2000) cachedStorage).2 = cachedStorage ∧
    (fetchFreshData offline (clockAt 2000) emptyStorage).2 = emptyStorage :=
  ⟨(fetchFreshData_failure_frame offline (clockAt 2000) cachedStorage).1 ⟨_, rfl⟩,
   (fetchFreshData_failure_frame offline (clockAt 2000) emptyStorage).1 ⟨_, rfl⟩⟩

/-- C25: when every registered source answers with an array and the storage
raises on the write with message `m`, `fetchFreshData` takes the failure path: with
a still valid entry in the slot it returns the entry's data, the fixed error text
and the entry's timestamp; with no valid cache (no item, a value without
timestamp, or an expired entry) it returns the empty array with error `m` and the
current time; in both cases the result carries an error and the storage is left as
it was. -/
theorem fetchFreshData_write_failure (net : Net) (clock : Clock) (st : Storage) (m : String)
    (hnet : ∀ s ∈ dataSources, ∃ items, net s.url = .resolved (.arr items))
    (hwrite : ∀ entry, setItem st entry = .error m) :
    fetchFreshData.tryBlock net clock st = .error m ∧
    (∀ e, st.slot = some (.entry e) → clock.getTime - e.timestamp < 5 * 60000 →
      fetchFreshData net clock st =
        (.ok { data := e.data,
               error := some "Failed to fetch fresh data. Showing cached data.",
               timestamp := e.timestamp, isCached := none }, st)) ∧
    ((st.slot = none ∨ st.slot = some .noTimestamp ∨
        ∃ e, st.slot = some (.entry e) ∧ 5 * 60000 ≤ clock.getTime - e.timestamp) →
      fetchFreshData net clock st =
        (.ok { data := [], error := some m, timestamp := clock.getTime,
               isCached := none }, st)) := by
  obtain ⟨raw, hraw, _, hsrc⟩ := fetchAllData_all_resolved net hnet
  obtain ⟨D, hD, _⟩ := transformFrom_ok clock.toISOString raw 0 hsrc
  have hD' : transformData clock.toISOString raw = .ok D := hD
  have hfail : fetchFreshData.tryBlock net clock st = .error m := by
    simp only [fetchFreshData.tryBlock, hraw, hD', hwrite]
  refine ⟨hfail, ?_, ?_⟩
  · intro e hslot hvalid
    have h' : clock.getTime - e.timestamp < 300000 := by omega
    rw [fetchFreshData_of_error net clock st m hfail, getCachedData_entry st e _ hslot]
    simp only [h', if_true]
  · intro hmiss
    have hread : getCachedData st clock.getTime = .ok none := by
      rcases hmiss with h | h | ⟨e, h, hage⟩
      · exact getCachedData_none st _ h
      · exact getCachedData_noTimestamp st _ h
      · have hage' : ¬ clock.getTime - e.timestamp < 300000 := by omega
        rw [getCachedData_entry st e _ h]
        simp only [hage', if_false]
    rw [fetchFreshData_of_error net clock st m hfail, hread]

/-- C25, witness: every source answers and the storage is full, once with a valid
entry in the slot and once with an empty slot. -/
theorem fetchFreshData_write_failure_witness :
    fetchFreshData online (clockAt 2000) cachedFullStorage =
      (.ok { data := [sampleSubmission],
             error := some "Failed to fetch fresh data. Showing cached data.",
             timestamp := 1000, isCached := none }, cachedFullStorage) ∧
    fetchFreshData online (clockAt 2000) fullStorage =
      (.ok { data := [], error := some "The quota has been exceeded.", timestamp := 2000,
             isCached := none }, fullStorage) :=
  ⟨(fetchFreshData_write_failure online (clockAt 2000) cachedFullStorage
      "The quota has been exceeded." (fun _ _ => ⟨_, rfl⟩) (fun _ => rfl)).2.1
      sampleEntry rfl (by decide),
   (fetchFreshData_write_failure online (clockAt 2000) fullStorage
      "The quota has been exceeded." (fun _ _ => ⟨_, rfl⟩) (fun _ => rfl)).2.2
      (Or.inl rfl)⟩

/-! ## The statistics of the dashboard (C26) -/

/-- Every submission that the callback builds is of type 'subscription' or
'contact'. -/
theorem transformItem_type_cases (nowIso : String) (item : RawRecord) (index : Nat)
    (sub : Submission) (h : transformItem nowIso item index = .ok sub) :
    sub.type = "subscription" ∨ sub.type = "contact" := by
  unfold transformItem at h
  split at h
  · exact absurd h (by simp)
  · split at h
    · exact absurd h (by simp)
    · simp only [Except.ok.injEq] at h
      rw [← h]
      exact Or.inl rfl
    · split at h
      · exact absurd h (by simp)
      · simp only [Except.ok.injEq] at h
        rw [← h]
        exact Or.inl rfl
      · simp only [Except.ok.injEq] at h
        rw [← h]
        exact Or.inr rfl

theorem transformFrom_type_cases (nowIso : String) (recs : List RawRecord) :
    ∀ index subs, transformFrom nowIso index recs = .ok subs →
      ∀ sub ∈ subs, sub.type = "subscription" ∨ sub.type = "contact" := by
  induction recs with
  | nil =>
    intro index subs h sub hsub
    simp only [transformFrom, Except.ok.injEq] at h
    rw [← h] at hsub
    simp at hsub
  | cons item rest ih =>
    intro index subs h sub hsub
    simp only [transformFrom] at h
    split at h
    · exact absurd h (by simp)
    · rename_i first hfirst
      split at h
      · exact absurd h (by simp)
      · rename_i others hothers
        simp only [Except.ok.injEq] at h
        rw [← h] at hsub
        rcases List.mem_cons.mp hsub with h1 | h2
        · rw [h1]
          exact transformItem_type_cases nowIso item index first hfirst
        · exact ih (index + 1) others hothers sub h2

theorem count_by_type (subs : List Submission)
    (h : ∀ sub ∈ subs, sub.type = "subscription" ∨ sub.type = "contact") :
    Dashboard.contactForms subs + Dashboard.subscriptions subs =
      Dashboard.totalSubmissions subs := by
  induction subs with
  | nil => rfl
  | cons sub rest ih =>
    have ih' := ih (fun x hx => h x (List.mem_cons_of_mem _ hx))
    simp only [Dashboard.contactForms, Dashboard.subscriptions,
      Dashboard.totalSubmissions] at ih' ⊢
    rcases h sub (List.mem_cons_self _ _) with ht | ht
    · simp only [List.filter_cons, ht, List.length_cons]
      have h1 : ("subscription" == "contact") = false := by decide
      have h2 : ("subscription" == "subscription") = true := by decide
      simp only [h1, h2, if_true, Bool.false_eq_true, if_false, List.length_cons]
      omega
    · simp only [List.filter_cons, ht, List.length_cons]
      have h1 : ("contact" == "contact") = true := by decide
      have h2 : ("contact" == "subscription") = false := by decide
      simp only [h1, h2, if_true, Bool.false_eq_true, if_false, List.length_cons]
      omega

/-- C26: for every sequence of submissions returned by `transformData`, the
statistic 'Contact Forms' plus the statistic 'Subscriptions' is the statistic
'Total Submissions', every submission of the sequence being of type 'contact' or
of type 'subscription'. -/
theorem stats_sum (nowIso : String) (recs : List RawRecord) (subs : List Submission)
    (h : transformData nowIso recs = .ok subs) :
    (∀ sub ∈ subs, sub.type = "subscription" ∨ sub.type = "contact") ∧
    Dashboard.contactForms subs + Dashboard.subscriptions subs =
      Dashboard.totalSubmissions subs := by
  have htypes := transformFrom_type_cases nowIso recs 0 subs h
  exact ⟨htypes, count_by_type subs htypes⟩

/-- C26, witness: the normalization of a contact record and a subscription record. -/
theorem stats_sum_witness :
    ∃ subs, transformData "2024-01-01T00:00:00.000Z"
        [fullRow, [("_source", .str "Email Subscription List - Professional Edge Global")]]
        = .ok subs ∧
      Dashboard.contactForms subs = 1 ∧ Dashboard.subscriptions subs = 1 ∧
      Dashboard.contactForms subs + Dashboard.subscriptions subs =
        Dashboard.totalSubmissions subs :=
  ⟨_, rfl, rfl, rfl,
    (stats_sum "2024-01-01T00:00:00.000Z"
      [fullRow, [("_source", .str "Email Subscription List - Professional Edge Global")]]
      _ rfl).2⟩

/-! ## The thumbnail dimensions of `compressImage` (C30) -/

theorem mathRound_le (x : ℚ) (n : Int) (h : x ≤ n) : mathRound x ≤ n := by
  unfold mathRound
  have h1 : ⌊x + 1 / 2⌋ < n + 1 := by
    rw [Int.floor_lt]
    push_cast
    linarith
  omega

/-- C30: for an image of positive width and height and positive bounds, the canvas
dimensions computed by `compressImage` are at most `maxWidth` and `maxHeight`, and
an image within both bounds keeps its dimensions. -/
theorem compressImage_dimensions_bounded (imgWidth imgHeight maxWidth maxHeight : Int)
    (hw : 0 < imgWidth) (hh : 0 < imgHeight) (hmw : 0 < maxWidth) (hmh : 0 < maxHeight) :
    (compressImage.dimensions imgWidth imgHeight maxWidth maxHeight).1 ≤ maxWidth ∧
    (compressImage.dimensions imgWidth imgHeight maxWidth maxHeight).2 ≤ maxHeight ∧
    (imgWidth ≤ maxWidth → imgHeight ≤ maxHeight →
      compressImage.dimensions imgWidth imgHeight maxWidth maxHeight =
        (imgWidth, imgHeight)) := by
  have hwq : (0 : ℚ) < imgWidth := by exact_mod_cast hw
  have hhq : (0 : ℚ) < imgHeight := by exact_mod_cast hh
  have hmwq : (0 : ℚ) < maxWidth := by exact_mod_cast hmw
  have hmhq : (0 : ℚ) < maxHeight := by exact_mod_cast hmh
  unfold compressImage.dimensions
  refine ⟨?_, ?_, ?_⟩
  · split
    · split
      · exact le_refl _
      · rename_i hratio
        apply mathRound_le
        have hle : (imgWidth : ℚ) / imgHeight ≤ (maxWidth : ℚ) / maxHeight := not_lt.mp hratio
        rw [div_le_div_iff₀ hhq hmhq] at hle
        rw [div_le_iff₀ hhq]
        exact hle
    · rename_i hin
      simp only
      omega
  · split
    · split
      · rename_i hratio
        apply mathRound_le
        have hlt : (maxWidth : ℚ) / maxHeight < (imgWidth : ℚ) / imgHeight := hratio
        rw [div_lt_div_iff₀ hmhq hhq] at hlt
        rw [div_le_iff₀ hwq]
        linarith
      · exact le_refl _
    · rename_i hin
      simp only
      omega
  · intro h1 h2
    have hin : ¬ (imgWidth > maxWidth ∨ imgHeight > maxHeight) := by omega
    simp only [hin, if_false]

/-- C30, witness: a 300 x 200 image and a 100 x 80 image with the default bounds
150 x 150. -/
theorem compressImage_dimensions_bounded_witness :
    (compressImage.dimensions 300 200 150 150).1 ≤ 150 ∧
    (compressImage.dimensions 300 200 150 150).2 ≤ 150 ∧
    compressImage.dimensions 100 80 150 150 = (100, 80) :=
  ⟨(compressImage_dimensions_bounded 300 200 150 150 (by decide) (by decide) (by decide)
      (by decide)).1,
   (compressImage_dimensions_bounded 300 200 150 150 (by decide) (by decide) (by decide)
      (by decide)).2.1,
   (compressImage_dimensions_bounded 100 80 150 150 (by decide) (by decide) (by decide)
      (by decide)).2.2 (by decide) (by decide)⟩

/-! ## The conversion of Drive links (C29) -/

theorem containsSub_append (needle before after : List Char) :
    containsSub needle (before ++ needle ++ after) = true :=
  (containsSub_iff needle _).mpr ⟨before, after, rfl⟩

/-- The view link built from a file id is a view link. -/
theorem viewLink_fixed (id : String) :
    getDirectDriveUrl (some ("https://drive.google.com/file/d/" ++ id ++ "/view")) =
      some ("https://drive.google.com/file/d/" ++ id ++ "/view") := by
  have hlist : ("https://drive.google.com/file/d/" ++ id ++ "/view").toList =
      "https://drive.google.com".toList ++ "/file/d/".toList ++ (id.toList ++ "/view".toList) := by
    simp only [String.toList, String.data_append, List.append_assoc]
    rfl
  have hlist2 : ("https://drive.google.com/file/d/" ++ id ++ "/view").toList =
      ("https://drive.google.com/file/d/".toList ++ id.toList) ++ "/view".toList ++ [] := by
    simp only [String.toList, String.data_append, List.append_nil]
  have h1 : containsSub "/file/d/".toList
      ("https://drive.google.com/file/d/" ++ id ++ "/view").toList = true := by
    rw [hlist]
    exact containsSub_append _ _ _
  have h2 : containsSub "/view".toList
      ("https://drive.google.com/file/d/" ++ id ++ "/view").toList = true := by
    rw [hlist2]
    exact containsSub_append _ _ _
  have hne : "https://drive.google.com/file/d/" ++ id ++ "/view" ≠ "" := by
    intro h
    have := congrArg String.length h
    simp at this
    exact absurd this.2 (by decide)
  simp only [getDirectDriveUrl, hne, if_false, h1, h2, Bool.and_self, if_true]

/-- C29: `getDirectDriveUrl` is idempotent; a link that contains '/file/d/' and
'/view' is returned as it is, and the view link built from a file id is left
unchanged by a second conversion. -/
theorem getDirectDriveUrl_idempotent (url : Option String) :
    getDirectDriveUrl (getDirectDriveUrl url) = getDirectDriveUrl url ∧
    (∀ u, url = some u → containsSub "/file/d/".toList u.toList = true →
      containsSub "/view".toList u.toList = true → getDirectDriveUrl url = some u) ∧
    (∀ id : String,
      getDirectDriveUrl (some ("https://drive.google.com/file/d/" ++ id ++ "/view")) =
        some ("https://drive.google.com/file/d/" ++ id ++ "/view")) := by
  refine ⟨?_, ?_, viewLink_fixed⟩
  · cases url with
    | none => rfl
    | some u =>
      by_cases hempty : u = ""
      · subst hempty
        rfl
      · by_cases hview : (containsSub "/file/d/".toList u.toList
            && containsSub "/view".toList u.toList) = true
        · have hfix : getDirectDriveUrl (some u) = some u := by
            simp only [getDirectDriveUrl, hempty, if_false, hview, if_true]
          rw [hfix, hfix]
        · cases hm : matchId u.toList with
          | some id =>
            by_cases hid : (String.mk id != "") = true
            · have hconv : getDirectDriveUrl (some u) =
                  some ("https://drive.google.com/file/d/" ++ String.mk id ++ "/view") := by
                simp only [getDirectDriveUrl, hempty, if_false, hview, hm, hid, if_true, Bool.false_eq_true]
              rw [hconv, viewLink_fixed]
            · have hfix : getDirectDriveUrl (some u) = some u := by
                simp only [getDirectDriveUrl, hempty, if_false, hview, hm, hid, Bool.false_eq_true, if_false]
              rw [hfix, hfix]
          | none =>
            by_cases hlen : u.length = 33
            · have hu : (u != "") = true := by simpa using hempty
              have hconv : getDirectDriveUrl (some u) =
                  some ("https://drive.google.com/file/d/" ++ u ++ "/view") := by
                simp only [getDirectDriveUrl, hempty, if_false, hview, hm, hlen, hu, if_true, Bool.false_eq_true]
              rw [hconv, viewLink_fixed]
            · have hfix : getDirectDriveUrl (some u) = some u := by
                simp only [getDirectDriveUrl, hempty, if_false, hview, hm, hlen, Bool.false_eq_true, if_false]
              rw [hfix, hfix]
  · intro u hu h1 h2
    subst hu
    by_cases hempty : u = ""
    · subst hempty
      rfl
    · simp only [getDirectDriveUrl, hempty, if_false, h1, h2, Bool.and_self, if_true]

/-- C29, witness: a download link, converted once and twice, and a view link. -/
theorem getDirectDriveUrl_idempotent_witness :
    getDirectDriveUrl (some "https://drive.google.com/uc?export=download&id=1AbC") =
      some "https://drive.google.com/file/d/1AbC/view" ∧
    getDirectDriveUrl
        (getDirectDriveUrl (some "https://drive.google.com/uc?export=download&id=1AbC")) =
      getDirectDriveUrl (some "https://drive.google.com/uc?export=download&id=1AbC") ∧
    getDirectDriveUrl (some "https://drive.google.com/file/d/1AbC/view?usp=sharing") =
      some "https://drive.google.com/file/d/1AbC/view?usp=sharing" :=
  ⟨by decide,
   (getDirectDriveUrl_idempotent
      (some "https://drive.google.com/uc?export=download&id=1AbC")).1,
   (getDirectDriveUrl_idempotent
      (some "https://drive.google.com/file/d/1AbC/view?usp=sharing")).2.1 _ rfl
      (by decide) (by decide)⟩

/-! ## The Submissions page: filter and rendering (C27, C21) -/

theorem containsSub_nil (hay : List Char) : containsSub [] hay = true := by
  cases hay with
  | nil => rfl
  | cons c cs => simp [containsSub]

theorem lowered_ok (toLowerCase : String → String) (v : JVal) (h : IsText v) :
    ∃ t, Submissions.lowered toLowerCase v = .ok t := by
  rcases h with rfl | ⟨t, rfl⟩
  · exact ⟨_, rfl⟩
  · exact ⟨_, rfl⟩

theorem getSourceWebsite_ok (toLowerCase : String → String) (v : JVal) (h : IsText v) :
    ∃ t, getSourceWebsite toLowerCase v = .ok t := by
  rcases h with rfl | ⟨t, rfl⟩
  · exact ⟨_, rfl⟩
  · simp only [getSourceWebsite]
    split
    · exact ⟨_, rfl⟩
    · split
      · exact ⟨_, rfl⟩
      · split
        · exact ⟨_, rfl⟩
        · split
          · exact ⟨_, rfl⟩
          · exact ⟨_, rfl⟩

theorem getCompanyFromEmail_ok (v : JVal) (h : IsText v) :
    ∃ t, getCompanyFromEmail v = .ok t := by
  rcases h with rfl | ⟨t, rfl⟩
  · exact ⟨_, rfl⟩
  · simp only [getCompanyFromEmail]
    split
    · exact ⟨_, rfl⟩
    · split
      · exact ⟨_, rfl⟩
      · exact ⟨_, rfl⟩

/-- On a submission whose fields are texts the search test returns. -/
theorem matchesSearch_ok (toLowerCase : String → String) (searchTerm : String)
    (sub : Submission) (h : TextFields sub) :
    ∃ b, Submissions.matchesSearch toLowerCase searchTerm sub = .ok b := by
  obtain ⟨hname, hemail, hsubject, hsite⟩ := h
  obtain ⟨name, hn⟩ := lowered_ok toLowerCase sub.name hname
  obtain ⟨email, he⟩ := lowered_ok toLowerCase sub.email hemail
  obtain ⟨subject, hs⟩ := lowered_ok toLowerCase sub.subject hsubject
  obtain ⟨website, hw⟩ := getSourceWebsite_ok toLowerCase sub.sourceSite hsite
  obtain ⟨company, hc⟩ := getCompanyFromEmail_ok sub.email hemail
  simp only [Submissions.matchesSearch, hn, he, hs, hw, hc]
  split_ifs <;> exact ⟨_, rfl⟩

/-- With an empty search term the search test holds as soon as the name is a text. -/
theorem matchesSearch_empty (toLowerCase : String → String) (hlower : toLowerCase "" = "")
    (sub : Submission) (h : IsText sub.name) :
    Submissions.matchesSearch toLowerCase "" sub = .ok true := by
  obtain ⟨name, hn⟩ := lowered_ok toLowerCase sub.name h
  have hterm : (toLowerCase "").toList = [] := by rw [hlower]; rfl
  simp only [Submissions.matchesSearch, hn, hterm, containsSub_nil, if_true]

theorem filteredSubmissions_sublist (toLowerCase : String → String)
    (searchTerm typeFilter : String) (subs : List Submission) :
    ∀ out, filteredSubmissions toLowerCase searchTerm typeFilter subs = .ok out →
      List.Sublist out subs := by
  induction subs with
  | nil =>
    intro out h
    simp only [filteredSubmissions, Except.ok.injEq] at h
    rw [← h]
  | cons sub rest ih =>
    intro out h
    simp only [filteredSubmissions] at h
    split at h
    · exact absurd h (by simp)
    · split at h
      · exact absurd h (by simp)
      · rename_i others hothers
        simp only [Except.ok.injEq] at h
        rw [← h]
        split
        · exact List.Sublist.cons₂ _ (ih others hothers)
        · exact List.Sublist.cons _ (ih others hothers)

theorem filteredSubmissions_ok (toLowerCase : String → String)
    (searchTerm typeFilter : String) (subs : List Submission)
    (h : ∀ s ∈ subs, TextFields s) :
    ∃ out, filteredSubmissions toLowerCase searchTerm typeFilter subs = .ok out := by
  induction subs with
  | nil => exact ⟨[], rfl⟩
  | cons sub rest ih =>
    obtain ⟨b, hb⟩ := matchesSearch_ok toLowerCase searchTerm sub (h sub (List.mem_cons_self _ _))
    obtain ⟨others, ho⟩ := ih (fun s hs => h s (List.mem_cons_of_mem _ hs))
    simp only [filteredSubmissions, hb, ho]
    exact ⟨_, rfl⟩

theorem filteredSubmissions_empty_term (toLowerCase : String → String)
    (hlower : toLowerCase "" = "") (typeFilter : String) (subs : List Submission)
    (h : ∀ s ∈ subs, IsText s.name) :
    filteredSubmissions toLowerCase "" typeFilter subs =
      .ok (subs.filter fun s => Submissions.matchesType typeFilter s) := by
  induction subs with
  | nil => rfl
  | cons sub rest ih =>
    have hs := matchesSearch_empty toLowerCase hlower sub (h sub (List.mem_cons_self _ _))
    have hr := ih (fun s hs => h s (List.mem_cons_of_mem _ hs))
    simp only [filteredSubmissions, hs, hr, Bool.true_and, List.filter_cons]

/-- A value that is neither a text nor `null` has no `toLowerCase` method. -/
theorem lowered_error (toLowerCase : String → String) (v : JVal) (h : ¬ IsText v) :
    Submissions.lowered toLowerCase v = .error "toLowerCase is not a function" := by
  cases v with
  | null => exact absurd (Or.inl rfl) h
  | str t => exact absurd (Or.inr ⟨t, rfl⟩) h
  | bool b => rfl
  | num n => rfl
  | arr items => rfl
  | obj fields => rfl

/-- The first test of the search reads the name: on a name that is neither a text
nor `null` it throws, whatever the search term. -/
theorem matchesSearch_error (toLowerCase : String → String) (searchTerm : String)
    (sub : Submission) (h : ¬ IsText sub.name) :
    Submissions.matchesSearch toLowerCase searchTerm sub =
      .error "toLowerCase is not a function" := by
  simp only [Submissions.matchesSearch, lowered_error toLowerCase _ h]

theorem filteredSubmissions_error (toLowerCase : String → String)
    (searchTerm typeFilter : String) (subs : List Submission)
    (h : ∃ s ∈ subs, ¬ IsText s.name) :
    ∃ e, filteredSubmissions toLowerCase searchTerm typeFilter subs = .error e := by
  induction subs with
  | nil =>
    obtain ⟨s, hs, _⟩ := h
    exact absurd hs (List.not_mem_nil s)
  | cons sub rest ih =>
    rcases hm : Submissions.matchesSearch toLowerCase searchTerm sub with e | found
    · simp only [filteredSubmissions, hm]
      exact ⟨_, rfl⟩
    · have hrest : ∃ s ∈ rest, ¬ IsText s.name := by
        obtain ⟨s, hs, hbad⟩ := h
        rcases List.mem_cons.mp hs with rfl | hin
        · rw [matchesSearch_error toLowerCase searchTerm s hbad] at hm
          exact absurd hm (by simp)
        · exact ⟨s, hin, hbad⟩
      obtain ⟨e, he⟩ := ih hrest
      simp only [filteredSubmissions, hm, he]
      exact ⟨_, rfl⟩

/-- C27, counterexample: a record whose `name` cell holds the number 5. The
normalizer keeps the number as the name, and on that one submission the filter with
an empty search term and the filter 'all' throws where the claim has it return the
sequence unchanged. -/
theorem filteredSubmissions_numeric_name_counterexample :
    ∃ subs, transformData "2024-01-01T00:00:00.000Z" [numberRow] = .ok subs ∧
      subs.map (fun s => s.name) = [.num 5] ∧
      filteredSubmissions asciiLower "" "all" subs =
        .error "toLowerCase is not a function" ∧
      filteredSubmissions asciiLower "" "all" subs ≠ .ok subs :=
  ⟨_, rfl, rfl, rfl, fun h => Except.noConfusion h⟩

/-- C27, amended: when every name is a text (or `null`), the filter of the
Submissions page with an empty search term returns the whole sequence for the
filter 'all' and, in the original order, exactly the submissions of that type for
the filters 'contact' and 'subscription' (for a `toLowerCase` that maps the empty
text to itself). When the name, email, subject and source of every submission are
texts (or `null`) the filter returns for every search term and filter; whenever it
returns, its result is a subsequence of the input in the original order. When some
name is another value (a number, a boolean, an array or an object) the filter throws
for every search term and filter. -/
theorem filteredSubmissions_spec (toLowerCase : String → String)
    (subs : List Submission) :
    (toLowerCase "" = "" → (∀ s ∈ subs, IsText s.name) →
      filteredSubmissions toLowerCase "" "all" subs = .ok subs ∧
      filteredSubmissions toLowerCase "" "contact" subs =
        .ok (subs.filter fun s => s.type == "contact") ∧
      filteredSubmissions toLowerCase "" "subscription" subs =
        .ok (subs.filter fun s => s.type == "subscription")) ∧
    ((∀ s ∈ subs, TextFields s) → ∀ searchTerm typeFilter, ∃ out,
      filteredSubmissions toLowerCase searchTerm typeFilter subs = .ok out ∧
      List.Sublist out subs) ∧
    (∀ searchTerm typeFilter out,
      filteredSubmissions toLowerCase searchTerm typeFilter subs = .ok out →
      List.Sublist out subs) ∧
    ((∃ s ∈ subs, ¬ IsText s.name) → ∀ searchTerm typeFilter, ∃ e,
      filteredSubmissions toLowerCase searchTerm typeFilter subs = .error e) := by
  refine ⟨?_, ?_, ?_, ?_⟩
  · intro hlower hname
    refine ⟨?_, ?_, ?_⟩
    · rw [filteredSubmissions_empty_term toLowerCase hlower "all" subs hname]
      congr 1
      apply List.filter_eq_self.mpr
      intro s _
      rfl
    · have hfun : (fun s => Submissions.matchesType "contact" s) =
          fun s : Submission => s.type == "contact" := by
        funext s
        simp [Submissions.matchesType]
      rw [filteredSubmissions_empty_term toLowerCase hlower "contact" subs hname, hfun]
    · have hfun : (fun s => Submissions.matchesType "subscription" s) =
          fun s : Submission => s.type == "subscription" := by
        funext s
        simp [Submissions.matchesType]
      rw [filteredSubmissions_empty_term toLowerCase hlower "subscription" subs hname, hfun]
  · intro htext searchTerm typeFilter
    obtain ⟨out, hout⟩ := filteredSubmissions_ok toLowerCase searchTerm typeFilter subs htext
    exact ⟨out, hout, filteredSubmissions_sublist toLowerCase searchTerm typeFilter subs out hout⟩
  · intro searchTerm typeFilter out hout
    exact filteredSubmissions_sublist toLowerCase searchTerm typeFilter subs out hout
  · intro hbad searchTerm typeFilter
    exact filteredSubmissions_error toLowerCase searchTerm typeFilter subs hbad

/-- C27, witness: a subscription, a contact and another subscription, filtered with
an empty search term: 'all' keeps the three in order, 'contact' keeps the second,
'subscription' keeps the first and the third in that order. With the search term
'acme' the two subscriptions give the second of them. -/
theorem filteredSubmissions_spec_witness :
    (filteredSubmissions asciiLower "" "all"
        [sampleSubmission, quotedSubmission, thirdSubmission] =
      .ok [sampleSubmission, quotedSubmission, thirdSubmission] ∧
    filteredSubmissions asciiLower "" "contact"
        [sampleSubmission, quotedSubmission, thirdSubmission] = .ok [quotedSubmission] ∧
    filteredSubmissions asciiLower "" "subscription"
        [sampleSubmission, quotedSubmission, thirdSubmission] =
      .ok [sampleSubmission, thirdSubmission]) ∧
    filteredSubmissions asciiLower "acme" "all" [sampleSubmission, thirdSubmission] =
      .ok [thirdSubmission] ∧
    ∃ out, filteredSubmissions asciiLower "acme" "all" [sampleSubmission, thirdSubmission] =
      .ok out ∧ List.Sublist out [sampleSubmission, thirdSubmission] :=
  ⟨(filteredSubmissions_spec asciiLower
      [sampleSubmission, quotedSubmission, thirdSubmission]).1 rfl (by
        intro s hs
        simp only [List.mem_cons, List.mem_singleton, List.not_mem_nil, or_false] at hs
        rcases hs with rfl | rfl | rfl
        · exact Or.inr ⟨_, rfl⟩
        · exact Or.inr ⟨_, rfl⟩
        · exact Or.inr ⟨_, rfl⟩),
   rfl,
   (filteredSubmissions_spec asciiLower [sampleSubmission, thirdSubmission]).2.1 (by
        intro s hs
        simp only [List.mem_cons, List.mem_singleton, List.not_mem_nil, or_false] at hs
        rcases hs with rfl | rfl
        · exact ⟨Or.inr ⟨_, rfl⟩, Or.inr ⟨_, rfl⟩, Or.inr ⟨_, rfl⟩, Or.inr ⟨_, rfl⟩⟩
        · exact ⟨Or.inr ⟨_, rfl⟩, Or.inr ⟨_, rfl⟩, Or.inr ⟨_, rfl⟩, Or.inr ⟨_, rfl⟩⟩)
      "acme" "all"⟩

/-- Once loading has finished, each of the two pages renders the error display
alone exactly when the error is set (and not the empty text) and there is no
submission. -/
theorem errorDisplay_iff (toLowerCase : String → String) (s : PageState)
    (searchTerm typeFilter : String) (e : String) (hload : s.loading = false) :
    (Dashboard.render s = .errorDisplay e ↔
      (s.error = some e ∧ e ≠ "" ∧ s.submissions = [])) ∧
    (Submissions.render toLowerCase s searchTerm typeFilter = .ok (.errorDisplay e) ↔
      (s.error = some e ∧ e ≠ "" ∧ s.submissions = [])) := by
  obtain ⟨subs, loading, error⟩ := s
  simp only at hload
  subst hload
  constructor
  · cases error with
    | none => simp [Dashboard.render, truthyError]
    | some e0 =>
      by_cases he0 : e0 = ""
      · subst he0
        simp only [Dashboard.render, truthyError, Bool.false_and, Bool.false_eq_true, if_false]
        constructor
        · intro h
          cases h
        · rintro ⟨h1, h2, _⟩
          simp only [Option.some.injEq] at h1
          exact absurd h1.symm h2
      · cases subs with
        | nil =>
          simp only [Dashboard.render, truthyError, Bool.false_and, Bool.false_eq_true,
            if_false, bne_iff_ne, ne_eq, he0, not_false_eq_true, if_true, List.length_nil,
            beq_self_eq_true, View.errorDisplay.injEq, Option.some.injEq, and_true]
          constructor
          · intro h
            exact ⟨h, h ▸ he0⟩
          · exact fun h => h.1
        | cons sub rest =>
          simp [Dashboard.render, truthyError, he0]
  · cases subs with
    | nil =>
      cases error with
      | none => simp [Submissions.render, filteredSubmissions, truthyError]
      | some e0 =>
        by_cases he0 : e0 = ""
        · subst he0
          simp only [Submissions.render, filteredSubmissions, truthyError, Bool.false_and,
            Bool.false_eq_true, if_false]
          constructor
          · intro h
            simp at h
          · rintro ⟨h1, h2, _⟩
            simp only [Option.some.injEq] at h1
            exact absurd h1.symm h2
        · simp only [Submissions.render, filteredSubmissions, truthyError, Bool.false_and,
            Bool.false_eq_true, if_false, bne_iff_ne, ne_eq, he0, not_false_eq_true, if_true,
            List.length_nil, beq_self_eq_true, Except.ok.injEq, View.errorDisplay.injEq,
            Option.some.injEq, and_true]
          constructor
          · intro h
            exact ⟨h, h ▸ he0⟩
          · exact fun h => h.1
    | cons sub rest =>
      constructor
      · intro h
        exfalso
        unfold Submissions.render at h
        split at h
        · exact absurd h (by simp)
        · simp only [Bool.false_and, Bool.false_eq_true, if_false, List.length_cons] at h
          split at h
          · simp at h
          · simp at h
      · rintro ⟨_, _, h⟩
        exact absurd h (by simp)

/-- C21, the code when an error comes with data: once loading has finished, with
an error that is set and submissions that are not empty, the Dashboard renders its
body with the inline error display showing the error, while the Submissions page
renders its table of the filtered submissions and no error display at all. -/
theorem data_pages_warning (toLowerCase : String → String) (s : PageState)
    (searchTerm typeFilter : String) (e : String) (filtered : List Submission)
    (hload : s.loading = false) (herr : s.error = some e) (hne : e ≠ "")
    (hdata : s.submissions ≠ [])
    (hfilter : filteredSubmissions toLowerCase searchTerm typeFilter s.submissions =
      .ok filtered) :
    Dashboard.render s = .page (some e) s.submissions ∧
    Submissions.render toLowerCase s searchTerm typeFilter = .ok (.page none filtered) := by
  have hlen : (s.submissions.length == 0) = false := by
    cases hs : s.submissions with
    | nil => exact absurd hs hdata
    | cons sub rest => rfl
  have htruthy : truthyError s.error = some e := by
    simp [truthyError, herr, hne]
  constructor
  · simp only [Dashboard.render, hload, Bool.false_and, Bool.false_eq_true, if_false, htruthy,
      hlen]
  · simp only [Submissions.render, hfilter, hload, Bool.false_and, Bool.false_eq_true, if_false,
      htruthy, hlen]

/-- C21, witness: cached data shown after a failed refresh. -/
theorem data_pages_warning_witness :
    Dashboard.render staleState =
      .page (some "Failed to fetch fresh data. Showing cached data.") [sampleSubmission] ∧
    Submissions.render asciiLower staleState "" "all" =
      .ok (.page none [sampleSubmission]) :=
  data_pages_warning asciiLower staleState "" "all"
    "Failed to fetch fresh data. Showing cached data." [sampleSubmission] rfl rfl (by decide)
    (by simp [staleState]) rfl

/-! ## The CSV export (C28) -/

theorem unescapeQuotes_doubled (rest : List Char) :
    unescapeQuotes ('"' :: '"' :: rest) = (unescapeQuotes rest).map ('"' :: ·) := by
  rw [unescapeQuotes.eq_def]
  simp

theorem unescapeQuotes_other (c : Char) (rest : List Char) (hc : c ≠ '"') :
    unescapeQuotes (c :: rest) = (unescapeQuotes rest).map (c :: ·) := by
  rw [unescapeQuotes.eq_def]
  simp [hc]

theorem unescapeQuotes_replaceQuotes (t : List Char) :
    unescapeQuotes (replaceQuotes t ++ ['"']) = some t := by
  induction t with
  | nil => rfl
  | cons c cs ih =>
    by_cases hc : c = '"'
    · subst hc
      have hstep : replaceQuotes ('"' :: cs) ++ ['"'] =
          '"' :: '"' :: (replaceQuotes cs ++ ['"']) := by
        simp only [replaceQuotes, if_true, List.cons_append]
      rw [hstep, unescapeQuotes_doubled, ih]
      rfl
    · have hstep : replaceQuotes (c :: cs) ++ ['"'] = c :: (replaceQuotes cs ++ ['"']) := by
        simp only [replaceQuotes, hc, if_false, List.cons_append]
      rw [hstep, unescapeQuotes_other c _ hc, ih]
      rfl

/-- Undoing the quoting of an exported cell gives back the exported text. -/
theorem unquoteField_csvField (numberToString : ℚ → String) (field : JVal) :
    unquoteField (csvField numberToString field) =
      some (exportedText numberToString field) := by
  have hlist : (csvField numberToString field).toList =
      '"' :: (replaceQuotes (exportedText numberToString field).toList ++ ['"']) := by
    simp only [csvField, String.toList, String.data_append]
    rfl
  simp only [unquoteField, hlist, if_true, unescapeQuotes_replaceQuotes, Option.map_some']
  rfl

/-- A value that is neither a text nor `null` has no `split` method. -/
theorem getCompanyFromEmail_error (v : JVal) (h : ¬ IsText v) :
    getCompanyFromEmail v = .error "email?.split is not a function" := by
  cases v with
  | null => exact absurd (Or.inl rfl) h
  | str t => exact absurd (Or.inr ⟨t, rfl⟩) h
  | bool b => rfl
  | num n => rfl
  | arr items => rfl
  | obj fields => rfl

/-- A value that is neither a text nor `null` has no `toLowerCase` method. -/
theorem getSourceWebsite_error (toLowerCase : String → String) (v : JVal)
    (h : ¬ IsText v) :
    getSourceWebsite toLowerCase v = .error "sourceSite?.toLowerCase is not a function" := by
  cases v with
  | null => exact absurd (Or.inl rfl) h
  | str t => exact absurd (Or.inr ⟨t, rfl⟩) h
  | bool b => rfl
  | num n => rfl
  | arr items => rfl
  | obj fields => rfl

theorem cells_ok (toLowerCase : String → String)
    (toLocaleDateString : JVal → Except String String) (sub : Submission)
    (hemail : IsText sub.email) (hsite : IsText sub.sourceSite) :
    ∃ cells, handleExport.cells toLowerCase toLocaleDateString sub = .ok cells ∧
      cells.length = 8 := by
  obtain ⟨company, hc⟩ := getCompanyFromEmail_ok sub.email hemail
  obtain ⟨website, hw⟩ := getSourceWebsite_ok toLowerCase sub.sourceSite hsite
  simp only [handleExport.cells, hc, hw]
  exact ⟨_, rfl, rfl⟩

theorem cells_error (toLowerCase : String → String)
    (toLocaleDateString : JVal → Except String String) (sub : Submission)
    (h : ¬ IsText sub.email ∨ ¬ IsText sub.sourceSite) :
    ∃ e, handleExport.cells toLowerCase toLocaleDateString sub = .error e := by
  by_cases hemail : IsText sub.email
  · obtain ⟨company, hc⟩ := getCompanyFromEmail_ok sub.email hemail
    have hsite : ¬ IsText sub.sourceSite := h.resolve_left (fun hn => hn hemail)
    simp only [handleExport.cells, hc, getSourceWebsite_error toLowerCase _ hsite]
    exact ⟨_, rfl⟩
  · simp only [handleExport.cells, getCompanyFromEmail_error _ hemail]
    exact ⟨_, rfl⟩

theorem rows_ok (toLowerCase : String → String)
    (toLocaleDateString : JVal → Except String String) (numberToString : ℚ → String)
    (subs : List Submission)
    (htext : ∀ s ∈ subs, IsText s.email ∧ IsText s.sourceSite) :
    ∃ rows, handleExport.rows toLowerCase toLocaleDateString numberToString subs = .ok rows ∧
      List.Forall₂ (fun sub row =>
        ∃ cells, handleExport.cells toLowerCase toLocaleDateString sub = .ok cells ∧
          cells.length = 8 ∧
          row = ",".intercalate (cells.map (csvField numberToString))) subs rows := by
  induction subs with
  | nil => exact ⟨[], rfl, List.Forall₂.nil⟩
  | cons sub rest ih =>
    obtain ⟨hemail, hsite⟩ := htext sub (List.mem_cons_self _ _)
    obtain ⟨cells, hcells, hlen⟩ := cells_ok toLowerCase toLocaleDateString sub hemail hsite
    obtain ⟨others, hothers, hall⟩ := ih (fun s hs => htext s (List.mem_cons_of_mem _ hs))
    refine ⟨",".intercalate (cells.map (csvField numberToString)) :: others, ?_,
      List.Forall₂.cons ⟨cells, hcells, hlen, rfl⟩ hall⟩
    simp only [handleExport.rows, hcells, hothers]

theorem rows_error (toLowerCase : String → String)
    (toLocaleDateString : JVal → Except String String) (numberToString : ℚ → String)
    (subs : List Submission)
    (h : ∃ s ∈ subs, ¬ IsText s.email ∨ ¬ IsText s.sourceSite) :
    ∃ e, handleExport.rows toLowerCase toLocaleDateString numberToString subs = .error e := by
  induction subs with
  | nil =>
    obtain ⟨s, hs, _⟩ := h
    exact absurd hs (List.not_mem_nil s)
  | cons sub rest ih =>
    rcases hc : handleExport.cells toLowerCase toLocaleDateString sub with e | cells
    · simp only [handleExport.rows, hc]
      exact ⟨_, rfl⟩
    · have hrest : ∃ s ∈ rest, ¬ IsText s.email ∨ ¬ IsText s.sourceSite := by
        obtain ⟨s, hs, hbad⟩ := h
        rcases List.mem_cons.mp hs with rfl | hin
        · obtain ⟨e, he⟩ := cells_error toLowerCase toLocaleDateString s hbad
          rw [he] at hc
          exact absurd hc (by simp)
        · exact ⟨s, hin, hbad⟩
      obtain ⟨e, he⟩ := ih hrest
      simp only [handleExport.rows, hc, he]
      exact ⟨_, rfl⟩

/-- C28, counterexample: a record whose `email` cell holds a number. The normalizer
keeps the number, the submission passes the filter with an empty search term, and
the export raises in `getCompanyFromEmail`: there is no CSV text, so no header row
and no data row. -/
theorem handleExport_numeric_email_counterexample :
    ∃ subs, transformData "2024-01-01T00:00:00.000Z" [numericEmailRow] = .ok subs ∧
      subs.length = 1 ∧
      filteredSubmissions asciiLower "" "all" subs = .ok subs ∧
      handleExport.csvContent asciiLower plainDate integerText subs =
        .error "email?.split is not a function" ∧
      ¬ ∃ text, handleExport.csvContent asciiLower plainDate integerText subs = .ok text :=
  ⟨_, rfl, rfl, rfl, rfl, fun ⟨_, h⟩ => Except.noConfusion h⟩

/-- C28, amended: for `n` filtered submissions whose email and source are texts (or
`null`), the CSV export is the header row
'ID,Type,Name,Email,Company,Subject,Source,Submitted At' followed by `n` data rows
joined by line feeds, the row at each position being the eight cells of the
submission at that position, each exported as a quoted field and joined by commas.
When the email or the source of some submission is another value (a number, a
boolean, an array or an object) the export raises and gives no text. For every
cell, whatever it holds, undoing the quoting of the exported field gives back the
text of the cell, and an empty or `null` cell is exported as "N/A". -/
theorem handleExport_csv (toLowerCase : String → String)
    (toLocaleDateString : JVal → Except String String) (numberToString : ℚ → String)
    (subs : List Submission) :
    ((∀ s ∈ subs, IsText s.email ∧ IsText s.sourceSite) →
      ∃ rows,
        handleExport.csvContent toLowerCase toLocaleDateString numberToString subs =
          .ok ("\n".intercalate
            ("ID,Type,Name,Email,Company,Subject,Source,Submitted At" :: rows)) ∧
        rows.length = subs.length ∧
        List.Forall₂ (fun sub row =>
          ∃ cells, handleExport.cells toLowerCase toLocaleDateString sub = .ok cells ∧
            cells.length = 8 ∧
            row = ",".intercalate (cells.map (csvField numberToString))) subs rows) ∧
    ((∃ s ∈ subs, ¬ IsText s.email ∨ ¬ IsText s.sourceSite) →
      ∃ e, handleExport.csvContent toLowerCase toLocaleDateString numberToString subs =
        .error e) ∧
    (∀ field, unquoteField (csvField numberToString field) =
      some (exportedText numberToString field)) ∧
    (∀ field, csvField numberToString field =
      "\"" ++ String.mk (replaceQuotes (exportedText numberToString field).toList) ++ "\"") ∧
    csvField numberToString (.str "") = "\"N/A\"" ∧
    csvField numberToString .null = "\"N/A\"" := by
  refine ⟨?_, ?_, unquoteField_csvField numberToString, fun _ => rfl, rfl, rfl⟩
  · intro htext
    obtain ⟨rows, hrows, hall⟩ :=
      rows_ok toLowerCase toLocaleDateString numberToString subs htext
    refine ⟨rows, ?_, hall.length_eq.symm, hall⟩
    simp only [handleExport.csvContent, hrows]
    rfl
  · intro hbad
    obtain ⟨e, he⟩ := rows_error toLowerCase toLocaleDateString numberToString subs hbad
    simp only [handleExport.csvContent, he]
    exact ⟨_, rfl⟩

set_option maxRecDepth 8000

/-- C28, witness: the export of three submissions. The second has a name with
double quotes, which are doubled; an email without `@`, so that its company is empty
and exported as "N/A"; and a number as subject. The rows follow the header in the
order of the submissions. -/
theorem handleExport_csv_witness :
    handleExport.csvContent asciiLower plainDate integerText
        [sampleSubmission, quotedSubmission, thirdSubmission] =
      .ok ("ID,Type,Name,Email,Company,Subject,Source,Submitted At\n" ++
        "\"1\",\"Subscription\",\"Not provided\",\"ann@example.org\",\"example\"," ++
        "\"No subject\",\"Career Subscription - Professional Edge Global\"," ++
        "\"2024-01-01T00:00:00.000Z\"\n" ++
        "\"2\",\"Contact Form\",\"Ann \"\"The Boss\"\" Lee\",\"No email\",\"N/A\"," ++
        "\"42\",\"Contact Form Submission - Professional Edge Global\"," ++
        "\"2024-02-02T00:00:00.000Z\"\n" ++
        "\"3\",\"Subscription\",\"Not provided\",\"cy@acme.com\",\"acme\"," ++
        "\"No subject\",\"Email Subscription List - Professional Edge Global\"," ++
        "\"2024-03-03T00:00:00.000Z\"") ∧
    (∃ rows,
      handleExport.csvContent asciiLower plainDate integerText
          [sampleSubmission, quotedSubmission, thirdSubmission] =
        .ok ("\n".intercalate
          ("ID,Type,Name,Email,Company,Subject,Source,Submitted At" :: rows)) ∧
      rows.length = 3) ∧
    csvField integerText quotedSubmission.name = "\"Ann \"\"The Boss\"\" Lee\"" ∧
    unquoteField (csvField integerText quotedSubmission.name) =
      some "Ann \"The Boss\" Lee" :=
  have h := handleExport_csv asciiLower plainDate integerText
    [sampleSubmission, quotedSubmission, thirdSubmission]
  ⟨rfl,
   (h.1 (by
      intro s hs
      simp only [List.mem_cons, List.mem_singleton, List.not_mem_nil, or_false] at hs
      rcases hs with rfl | rfl | rfl
      · exact ⟨Or.inr ⟨_, rfl⟩, Or.inr ⟨_, rfl⟩⟩
      · exact ⟨Or.inr ⟨_, rfl⟩, Or.inr ⟨_, rfl⟩⟩
      · exact ⟨Or.inr ⟨_, rfl⟩, Or.inr ⟨_, rfl⟩⟩)).imp fun _ hr => ⟨hr.1, hr.2.1⟩,
   rfl,
   h.2.2.1 quotedSubmission.name⟩

end Admin
